import Mathlib

/-!
Shallow embedding of `sys/fs/pefs/pefs_dircache.c` (the PEFS bidirectional
directory-entry name cache).

Modelling conventions:
- Machine integers (`uint32_t`, `u_long`) are `Nat`, reduced `% 2^32` where
  the C type is 32-bit and overflow can occur (the hash primitive).
- Heap objects are identified by `Nat` ids.  The whole mutable heap
  (entry arena, per-directory caches, the shared pool's two bucket tables,
  diagnostic counters, key reference counts) is one explicit state record
  threaded through every operation.
- The intrusive `LIST_*` macros become plain `List Nat` values of entry ids;
  `LIST_REMOVE` becomes a filter of the id out of the list (an intrusive
  node occurs at most once on a list), `LIST_INSERT_HEAD` becomes `cons`.
- The C `while (!LIST_EMPTY(head)) f(LIST_FIRST(head))` loops, in which each
  iteration removes exactly the current first node from `head`, are modelled
  as structural folds over a snapshot of the list taken when the loop starts:
  the iteration order and effects coincide because every step removes the
  element it processes.
- `pd_flags & PD_UPDATING` and `pd_flags & PD_SWAPEDHEADS` become two
  booleans of the cache record.
- Locks (`sx`, shard mutexes) and debug assertions (`MPASS`, the
  `PEFSDEBUG` traces) have no run-time effect on the cached data and are
  not modelled; the assertion bodies reappear as proved invariants.
- `panic` (the invalid-name-length path of `pefs_dircache_insert`) makes
  insertion return `none`.
-/

/-- `DIRCACHE_SIZE_MIN` from pefs_dircache.c. -/
def DIRCACHE_SIZE_MIN : Nat := 512

/-- `DIRCACHE_SIZE_DEFAULT` from pefs_dircache.c: `desiredvnodes / 8`, with the
kernel global `desiredvnodes` passed explicitly. -/
def DIRCACHE_SIZE_DEFAULT (desiredvnodes : Nat) : Nat := desiredvnodes / 8

/-- Size of the fixed name buffers of `struct pefs_dircache_entry`
(`sizeof(pde->pde_name)`, `sizeof(pde->pde_encname)`).
Modelled from the spec: the header `pefs_dircache.h` declaring the entry
struct is not under src/; the spec only requires a single fixed maximum
name length, the buffers holding a name plus its NUL terminator. -/
def PEFS_DIRCACHE_NAMEBUF : Nat := 256

/-- `HASHINIT` of the external 32-bit hash collaborator (`sys/hash.h`). -/
def HASHINIT : Nat := 5381

/-- Modelled from the spec: the external 32-bit seedable hash primitive over a
byte buffer (`hash32_buf` of `sys/hash.h`, a collaborator outside this
repository). -/
def hash32_buf (buf : List Nat) (seed : Nat) : Nat :=
  buf.foldl (fun h c => (h * 33 + c) % 2 ^ 32) (seed % 2 ^ 32)

/-- Modelled from the spec: the external pointer-mixing collaborator
`pefs_hash_mixptr` (pefs.h, not under src/) applied to a directory cache's
identity; a 32-bit mix of the owning cache's identity. -/
def pefs_hash_mixptr (pd : Nat) : Nat := pd % 2 ^ 32

/-- `struct pefs_dircache_entry`.  Names are byte lists; `pde_namelen` /
`pde_encnamelen` are the list lengths.  `pde_tkey` is the id of the opaque
reference-counted key handle. -/
structure pefs_dircache_entry where
  pde_dircache : Nat
  pde_tkey : Nat
  pde_gen : Nat
  pde_namehash : Nat
  pde_encnamehash : Nat
  pde_name : List Nat
  pde_encname : List Nat
deriving DecidableEq

/-- `struct pefs_dircache`: generation counter, the two flag bits of
`pd_flags`, and the double-buffered pair of list heads `pd_heads[2]`
(holding entry ids). -/
structure pefs_dircache where
  pd_gen : Nat
  pd_updating : Bool
  pd_swapedheads : Bool
  pd_head0 : List Nat
  pd_head1 : List Nat
deriving DecidableEq

/-- The explicit heap: entry arena, caches, the pool's two bucket tables
(`pdp_tbl`, `pdp_enctbl`, indexed by `hash & dircache_hashmask`), the
`dircache_entries` diagnostic counter and key-handle reference counts. -/
structure DircacheState where
  dircache_hashmask : Nat
  entries : Nat → Option pefs_dircache_entry
  nextEntryId : Nat
  caches : Nat → pefs_dircache
  nextCacheId : Nat
  pdp_tbl : Nat → List Nat
  pdp_enctbl : Nat → List Nat
  dircache_entries : Nat
  keyRefs : Nat → Int

/-- `DIRCACHE_ACTIVEHEAD`: `pd_heads[off ^ 0]` where `off` is 1 iff
`PD_SWAPEDHEADS` is set. -/
def DIRCACHE_ACTIVEHEAD (pd : pefs_dircache) : List Nat :=
  if pd.pd_swapedheads then pd.pd_head1 else pd.pd_head0

/-- `DIRCACHE_STALEHEAD`: `pd_heads[off ^ 1]`. -/
def DIRCACHE_STALEHEAD (pd : pefs_dircache) : List Nat :=
  if pd.pd_swapedheads then pd.pd_head0 else pd.pd_head1

/-- Overwrite the list the active head currently designates. -/
def setActiveHead (pd : pefs_dircache) (l : List Nat) : pefs_dircache :=
  if pd.pd_swapedheads then { pd with pd_head1 := l } else { pd with pd_head0 := l }

/-- Overwrite the list the stale head currently designates. -/
def setStaleHead (pd : pefs_dircache) (l : List Nat) : pefs_dircache :=
  if pd.pd_swapedheads then { pd with pd_head0 := l } else { pd with pd_head1 := l }

/-- `LIST_REMOVE` of an id from one list. -/
def listRemove (l : List Nat) (id : Nat) : List Nat :=
  l.filter (fun x => x != id)

/-- `LIST_REMOVE(pde, pde_dir_entry)`: the entry sits on exactly one of the
two heads of its cache; removing it from both is the intrusive unlink. -/
def dirListRemove (pd : pefs_dircache) (id : Nat) : pefs_dircache :=
  { pd with pd_head0 := listRemove pd.pd_head0 id,
            pd_head1 := listRemove pd.pd_head1 id }

/-- Update one cache in the state. -/
def setCache (s : DircacheState) (d : Nat) (pd : pefs_dircache) : DircacheState :=
  { s with caches := fun i => if i = d then pd else s.caches i }

/-- Update one arena slot. -/
def setEntry (s : DircacheState) (id : Nat) (e : Option pefs_dircache_entry) :
    DircacheState :=
  { s with entries := fun i => if i = id then e else s.entries i }

/-- Bucket index: `(hash) & dircache_hashmask` (`DIRCACHE_TBL` /
`DIRCACHE_ENCTBL`). -/
def tblIdx (s : DircacheState) (h : Nat) : Nat :=
  h &&& s.dircache_hashmask

/-- Replace one plaintext-hash bucket. -/
def setTbl (s : DircacheState) (i : Nat) (l : List Nat) : DircacheState :=
  { s with pdp_tbl := fun j => if j = i then l else s.pdp_tbl j }

/-- Replace one encrypted-hash bucket. -/
def setEncTbl (s : DircacheState) (i : Nat) (l : List Nat) : DircacheState :=
  { s with pdp_enctbl := fun j => if j = i then l else s.pdp_enctbl j }

/-- `dircache_hashname`: mix of the owning cache's identity XORed with the
32-bit buffer hash seeded `HASHINIT * len`. -/
def dircache_hashname (pd : Nat) (buf : List Nat) : Nat :=
  Nat.xor (pefs_hash_mixptr pd) (hash32_buf buf (HASHINIT * buf.length))

/-- `pefs_dircache_create`: zeroed cache (gen 0, flags clear, both heads
empty) at a fresh id. -/
def pefs_dircache_create (s : DircacheState) : DircacheState × Nat :=
  let d := s.nextCacheId
  ({ s with
      caches := fun i => if i = d then
          { pd_gen := 0, pd_updating := false, pd_swapedheads := false,
            pd_head0 := [], pd_head1 := [] }
        else s.caches i,
      nextCacheId := d + 1 }, d)

/-- `dircache_entry_free`: release the key reference, unlink from the
directory list and from both pool buckets, decrement the live counter and
reclaim the arena slot.  A dangling id (empty arena slot) is unreachable in
the C code (`MPASS(pde != NULL)` and intrusive membership); modelled as a
no-op. -/
def dircache_entry_free (s : DircacheState) (id : Nat) : DircacheState :=
  match s.entries id with
  | none => s
  | some pde =>
    let s1 : DircacheState :=
      { s with keyRefs := fun k =>
          if k = pde.pde_tkey then s.keyRefs k - 1 else s.keyRefs k }
    let d := pde.pde_dircache
    let s2 := setCache s1 d (dirListRemove (s1.caches d) id)
    let bi := tblIdx s2 pde.pde_namehash
    let s3 := setTbl s2 bi (listRemove (s2.pdp_tbl bi) id)
    let ei := tblIdx s3 pde.pde_encnamehash
    let s4 := setEncTbl s3 ei (listRemove (s3.pdp_enctbl ei) id)
    let s5 := setEntry s4 id none
    { s5 with dircache_entries := s5.dircache_entries - 1 }

/-- Fold of `dircache_entry_free` over a snapshot of a list (the
free-every-first-element `while` loops of `pefs_dircache_endupdate` and
`pefs_dircache_purge`). -/
def freeList (s : DircacheState) : List Nat → DircacheState
  | [] => s
  | id :: rest => freeList (dircache_entry_free s id) rest

/-- One iteration of the expire relink loop: clear the entry's generation
stamp, unlink it from the directory list and insert it at the stale head. -/
def expireMoveOne (s : DircacheState) (d : Nat) (id : Nat) : DircacheState :=
  let s1 :=
    match s.entries id with
    | none => s
    | some pde => setEntry s id (some { pde with pde_gen := 0 })
  let pd := s1.caches d
  let pd := dirListRemove pd id
  let pd := setStaleHead pd (id :: DIRCACHE_STALEHEAD pd)
  setCache s1 d pd

/-- Fold of `expireMoveOne` over a snapshot of the active list (the
move-every-first-element `while` loop of `dircache_expire`). -/
def expireMove (s : DircacheState) (d : Nat) : List Nat → DircacheState
  | [] => s
  | id :: rest => expireMove (expireMoveOne s d id) d rest

/-- `dircache_expire`: zero the generation, then either O(1)-swap the heads
(stale empty) or relink every active entry onto the stale list, clearing its
generation stamp. -/
def dircache_expire (s : DircacheState) (d : Nat) : DircacheState :=
  let pd := s.caches d
  let pd := { pd with pd_gen := 0 }
  let s1 := setCache s d pd
  if DIRCACHE_STALEHEAD pd = [] then
    setCache s1 d { pd with pd_swapedheads := !pd.pd_swapedheads }
  else
    expireMove s1 d (DIRCACHE_ACTIVEHEAD pd)

/-- `dircache_update` (static): the reconfirmation primitive.  `onlist` tells
whether the entry already sits on a directory list (true for the public
`pefs_dircache_update`, false for the tail of `pefs_dircache_insert`). -/
def dircache_update_core (s : DircacheState) (id : Nat) (onlist : Bool) :
    DircacheState :=
  match s.entries id with
  | none => s
  | some pde =>
    let d := pde.pde_dircache
    let pd := s.caches d
    if pd.pd_updating then
      let s1 := setEntry s id (some { pde with pde_gen := pd.pd_gen })
      let pd1 := s1.caches d
      let pd1 := if onlist then dirListRemove pd1 id else pd1
      let pd1 := setActiveHead pd1 (id :: DIRCACHE_ACTIVEHEAD pd1)
      setCache s1 d pd1
    else if pd.pd_gen = 0 ∨ pd.pd_gen ≠ pde.pde_gen then
      let s1 := dircache_expire s d
      let s2 :=
        match s1.entries id with
        | none => s1
        | some pde1 => setEntry s1 id (some { pde1 with pde_gen := 0 })
      if onlist then s2
      else
        let pd2 := s2.caches d
        setCache s2 d (setStaleHead pd2 (id :: DIRCACHE_STALEHEAD pd2))
    else s

/-- The fresh zeroed entry built by `pefs_dircache_insert` (`uma_zalloc`
with `M_ZERO` plus the field assignments): names copied, both hashes mixed
with the owning cache's identity, generation stamp 0. -/
def mkEntry (d ptk : Nat) (name encname : List Nat) : pefs_dircache_entry :=
  { pde_dircache := d
    pde_tkey := ptk
    pde_gen := 0
    pde_namehash := dircache_hashname d name
    pde_encnamehash := dircache_hashname d encname
    pde_name := name
    pde_encname := encname }

/-- The arena allocation step of `pefs_dircache_insert`: store the fresh
entry at the fresh id and take a reference on its key. -/
def insertEntryState (s : DircacheState) (id : Nat)
    (pde : pefs_dircache_entry) : DircacheState :=
  { s with
      entries := fun i => if i = id then some pde else s.entries i,
      nextEntryId := id + 1,
      keyRefs := fun k =>
        if k = pde.pde_tkey then s.keyRefs k + 1 else s.keyRefs k }

/-- `pefs_dircache_insert`.  The invalid-length `panic` is the `none`
result.  Otherwise: fresh zeroed entry, names copied, both hashes mixed with
the cache identity, key referenced, entry run through `dircache_update`
(`onlist = 0`), inserted at the head of both pool buckets, live counter
incremented. -/
def pefs_dircache_insert (s : DircacheState) (d : Nat) (ptk : Nat)
    (name encname : List Nat) : Option (DircacheState × Nat) :=
  if name.length = 0 ∨ name.length ≥ PEFS_DIRCACHE_NAMEBUF ∨
      encname.length = 0 ∨ encname.length ≥ PEFS_DIRCACHE_NAMEBUF then
    none
  else
    let id := s.nextEntryId
    let pde := mkEntry d ptk name encname
    let s1 := insertEntryState s id pde
    let s2 := dircache_update_core s1 id false
    let bi := tblIdx s2 pde.pde_namehash
    let s3 := setTbl s2 bi (id :: s2.pdp_tbl bi)
    let ei := tblIdx s3 pde.pde_encnamehash
    let s4 := setEncTbl s3 ei (id :: s3.pdp_enctbl ei)
    some ({ s4 with dircache_entries := s4.dircache_entries + 1 }, id)

/-- The per-entry match test of `pefs_dircache_lookup`'s bucket scan:
hash, owning cache, generation freshness, length and raw bytes. -/
def name_match (s : DircacheState) (d : Nat) (h : Nat) (name : List Nat)
    (id : Nat) : Bool :=
  match s.entries id with
  | none => false
  | some pde =>
    pde.pde_namehash == h && pde.pde_dircache == d &&
    pde.pde_gen == (s.caches d).pd_gen &&
    pde.pde_name.length == name.length && pde.pde_name == name

/-- `pefs_dircache_lookup`: scan the plaintext bucket for the first match.
The `MPASS` preconditions (not updating, stale list empty) are debug
assertions with no run-time effect and are stated as theorem hypotheses
where relevant. -/
def pefs_dircache_lookup (s : DircacheState) (d : Nat) (name : List Nat) :
    Option Nat :=
  let h := dircache_hashname d name
  (s.pdp_tbl (tblIdx s h)).find? (name_match s d h name)

/-- The per-entry match test of `pefs_dircache_enclookup`'s bucket scan:
hash, owning cache, length and raw bytes — no generation test. -/
def enc_match (s : DircacheState) (d : Nat) (h : Nat) (encname : List Nat)
    (id : Nat) : Bool :=
  match s.entries id with
  | none => false
  | some pde =>
    pde.pde_encnamehash == h && pde.pde_dircache == d &&
    pde.pde_encname.length == encname.length && pde.pde_encname == encname

/-- `pefs_dircache_enclookup`: scan the encrypted-name bucket for the first
match. -/
def pefs_dircache_enclookup (s : DircacheState) (d : Nat) (encname : List Nat) :
    Option Nat :=
  let h := dircache_hashname d encname
  (s.pdp_enctbl (tblIdx s h)).find? (enc_match s d h encname)

/-- `pefs_dircache_update` (public reconfirmation): `dircache_update` with
`onlist = 1`. -/
def pefs_dircache_update (s : DircacheState) (id : Nat) : DircacheState :=
  dircache_update_core s id true

/-- `pefs_dircache_beginupdate` (the lock juggling is not modelled): on a
fresh non-zero generation, expire a non-empty active list, store the new
generation and raise `PD_UPDATING`; otherwise a no-op. -/
def pefs_dircache_beginupdate (s : DircacheState) (d : Nat) (gen : Nat) :
    DircacheState :=
  if gen ≠ 0 ∧ (s.caches d).pd_gen ≠ gen then
    let s1 :=
      if DIRCACHE_ACTIVEHEAD (s.caches d) ≠ [] then dircache_expire s d else s
    let pd := s1.caches d
    setCache s1 d { pd with pd_gen := gen, pd_updating := true }
  else s

/-- `pefs_dircache_abortupdate`: while updating, expire and clear
`PD_UPDATING`. -/
def pefs_dircache_abortupdate (s : DircacheState) (d : Nat) : DircacheState :=
  if (s.caches d).pd_updating then
    let s1 := dircache_expire s d
    let pd := s1.caches d
    setCache s1 d { pd with pd_updating := false }
  else s

/-- `pefs_dircache_endupdate`: while updating, free every entry left on the
stale list and clear `PD_UPDATING`; otherwise a no-op. -/
def pefs_dircache_endupdate (s : DircacheState) (d : Nat) : DircacheState :=
  if (s.caches d).pd_updating then
    let s1 := freeList s (DIRCACHE_STALEHEAD (s.caches d))
    let pd := s1.caches d
    setCache s1 d { pd with pd_updating := false }
  else s

/-- `pefs_dircache_purge`: free every entry on the stale list, then every
entry on the active list (the second snapshot read after the first loop, as
in the source). -/
def pefs_dircache_purge (s : DircacheState) (d : Nat) : DircacheState :=
  let s1 := freeList s (DIRCACHE_STALEHEAD (s.caches d))
  freeList s1 (DIRCACHE_ACTIVEHEAD (s1.caches d))

/-- The state right after `pefs_dircache_init` ran against an empty system:
a chosen hash mask, empty arena, no caches, both bucket tables empty. -/
def initState (mask : Nat) : DircacheState :=
  { dircache_hashmask := mask
    entries := fun _ => none
    nextEntryId := 0
    caches := fun _ =>
      { pd_gen := 0, pd_updating := false, pd_swapedheads := false,
        pd_head0 := [], pd_head1 := [] }
    nextCacheId := 0
    pdp_tbl := fun _ => []
    pdp_enctbl := fun _ => []
    dircache_entries := 0
    keyRefs := fun _ => 0 }

/-- FreeBSD `flsl`: one-based index of the most significant set bit,
`flsl 0 = 0`. -/
def flsl (n : Nat) : Nat :=
  if n = 0 then 0 else Nat.log2 n + 1

/-- The bucket-count fixup of `pefs_dircache_init`: a tunable below
`DIRCACHE_SIZE_MIN` is replaced by `DIRCACHE_SIZE_DEFAULT`
(`desiredvnodes / 8`). -/
def dircache_init_buckets (tunable desiredvnodes : Nat) : Nat :=
  if tunable < DIRCACHE_SIZE_MIN then DIRCACHE_SIZE_DEFAULT desiredvnodes
  else tunable

/-- `dircache_hashmask = (1 << flsl(dircache_buckets)) - 1` of
`pefs_dircache_init`. -/
def dircache_init_hashmask (tunable desiredvnodes : Nat) : Nat :=
  2 ^ flsl (dircache_init_buckets tunable desiredvnodes) - 1

/-- `tbl_size = dircache_hashmask + 1` of `pefs_dircache_pool_init`. -/
def dircache_init_tbl_size (tunable desiredvnodes : Nat) : Nat :=
  dircache_init_hashmask tunable desiredvnodes + 1

/-- `pefs_dircache_pool_init`: each of `pdp_tbl` / `pdp_enctbl` is an array
of `tbl_size` buckets, every one initialized to the empty list. -/
def pefs_dircache_pool_init_tbl (tbl_size : Nat) : List (List Nat) :=
  List.replicate tbl_size []

/-- The bytes of the name "foo" used by the spec's insert/commit/lookup
scenario. -/
def nameFoo : List Nat := [102, 111, 111]

/-- The bytes of the encrypted name "ABC" of the same scenario. -/
def nameABC : List Nat := [65, 66, 67]

/-! ### Basic projection lemmas for the state setters -/

theorem setCache_caches_self (s : DircacheState) (d : Nat) (pd : pefs_dircache) :
    (setCache s d pd).caches d = pd := by
  simp [setCache]

theorem setCache_caches_ne (s : DircacheState) (d d' : Nat) (pd : pefs_dircache)
    (h : d' ≠ d) : (setCache s d pd).caches d' = s.caches d' := by
  simp [setCache, h]

theorem setCache_entries (s : DircacheState) (d : Nat) (pd : pefs_dircache) :
    (setCache s d pd).entries = s.entries := rfl

theorem setCache_tbl (s : DircacheState) (d : Nat) (pd : pefs_dircache) :
    (setCache s d pd).pdp_tbl = s.pdp_tbl := rfl

theorem setCache_enctbl (s : DircacheState) (d : Nat) (pd : pefs_dircache) :
    (setCache s d pd).pdp_enctbl = s.pdp_enctbl := rfl

theorem setCache_hashmask (s : DircacheState) (d : Nat) (pd : pefs_dircache) :
    (setCache s d pd).dircache_hashmask = s.dircache_hashmask := rfl

theorem setEntry_caches (s : DircacheState) (id : Nat)
    (e : Option pefs_dircache_entry) : (setEntry s id e).caches = s.caches := rfl

theorem setEntry_entries_self (s : DircacheState) (id : Nat)
    (e : Option pefs_dircache_entry) : (setEntry s id e).entries id = e := by
  simp [setEntry]

theorem setEntry_entries_ne (s : DircacheState) (id i : Nat)
    (e : Option pefs_dircache_entry) (h : i ≠ id) :
    (setEntry s id e).entries i = s.entries i := by
  simp [setEntry, h]

/-! ### Head accessor lemmas -/

theorem activehead_setStaleHead (pd : pefs_dircache) (l : List Nat) :
    DIRCACHE_ACTIVEHEAD (setStaleHead pd l) = DIRCACHE_ACTIVEHEAD pd := by
  cases h : pd.pd_swapedheads <;>
    simp [DIRCACHE_ACTIVEHEAD, setStaleHead, h]

theorem stalehead_setStaleHead (pd : pefs_dircache) (l : List Nat) :
    DIRCACHE_STALEHEAD (setStaleHead pd l) = l := by
  cases h : pd.pd_swapedheads <;>
    simp [DIRCACHE_STALEHEAD, setStaleHead, h]

theorem activehead_setActiveHead (pd : pefs_dircache) (l : List Nat) :
    DIRCACHE_ACTIVEHEAD (setActiveHead pd l) = l := by
  cases h : pd.pd_swapedheads <;>
    simp [DIRCACHE_ACTIVEHEAD, setActiveHead, h]

theorem stalehead_setActiveHead (pd : pefs_dircache) (l : List Nat) :
    DIRCACHE_STALEHEAD (setActiveHead pd l) = DIRCACHE_STALEHEAD pd := by
  cases h : pd.pd_swapedheads <;>
    simp [DIRCACHE_STALEHEAD, setActiveHead, h]

theorem activehead_dirListRemove (pd : pefs_dircache) (id : Nat) :
    DIRCACHE_ACTIVEHEAD (dirListRemove pd id) =
      listRemove (DIRCACHE_ACTIVEHEAD pd) id := by
  cases h : pd.pd_swapedheads <;>
    simp [DIRCACHE_ACTIVEHEAD, dirListRemove, h]

theorem stalehead_dirListRemove (pd : pefs_dircache) (id : Nat) :
    DIRCACHE_STALEHEAD (dirListRemove pd id) =
      listRemove (DIRCACHE_STALEHEAD pd) id := by
  cases h : pd.pd_swapedheads <;>
    simp [DIRCACHE_STALEHEAD, dirListRemove, h]

theorem setStaleHead_gen (pd : pefs_dircache) (l : List Nat) :
    (setStaleHead pd l).pd_gen = pd.pd_gen := by
  cases h : pd.pd_swapedheads <;> simp [setStaleHead, h]

theorem setStaleHead_updating (pd : pefs_dircache) (l : List Nat) :
    (setStaleHead pd l).pd_updating = pd.pd_updating := by
  cases h : pd.pd_swapedheads <;> simp [setStaleHead, h]

theorem setStaleHead_swaped (pd : pefs_dircache) (l : List Nat) :
    (setStaleHead pd l).pd_swapedheads = pd.pd_swapedheads := by
  cases h : pd.pd_swapedheads <;> simp [setStaleHead, h]

theorem setActiveHead_gen (pd : pefs_dircache) (l : List Nat) :
    (setActiveHead pd l).pd_gen = pd.pd_gen := by
  cases h : pd.pd_swapedheads <;> simp [setActiveHead, h]

theorem setActiveHead_updating (pd : pefs_dircache) (l : List Nat) :
    (setActiveHead pd l).pd_updating = pd.pd_updating := by
  cases h : pd.pd_swapedheads <;> simp [setActiveHead, h]

theorem setActiveHead_swaped (pd : pefs_dircache) (l : List Nat) :
    (setActiveHead pd l).pd_swapedheads = pd.pd_swapedheads := by
  cases h : pd.pd_swapedheads <;> simp [setActiveHead, h]

theorem dirListRemove_gen (pd : pefs_dircache) (id : Nat) :
    (dirListRemove pd id).pd_gen = pd.pd_gen := rfl

theorem dirListRemove_updating (pd : pefs_dircache) (id : Nat) :
    (dirListRemove pd id).pd_updating = pd.pd_updating := rfl

theorem dirListRemove_swaped (pd : pefs_dircache) (id : Nat) :
    (dirListRemove pd id).pd_swapedheads = pd.pd_swapedheads := rfl

/-! ### Lemmas about `expireMoveOne` / `expireMove` / `dircache_expire` -/

theorem expireMoveOne_caches_ne (s : DircacheState) (d d' id : Nat)
    (h : d' ≠ d) : (expireMoveOne s d id).caches d' = s.caches d' := by
  unfold expireMoveOne
  cases he : s.entries id <;>
    simp [setCache_caches_ne _ _ _ _ h, setEntry_caches]

theorem expireMoveOne_gen (s : DircacheState) (d d' id : Nat) :
    ((expireMoveOne s d id).caches d').pd_gen = (s.caches d').pd_gen := by
  by_cases h : d' = d
  · subst h
    unfold expireMoveOne
    cases he : s.entries id <;>
      simp [setCache_caches_self, setEntry_caches, setStaleHead_gen,
        dirListRemove_gen]
  · rw [expireMoveOne_caches_ne _ _ _ _ h]

theorem expireMoveOne_updating (s : DircacheState) (d d' id : Nat) :
    ((expireMoveOne s d id).caches d').pd_updating = (s.caches d').pd_updating := by
  by_cases h : d' = d
  · subst h
    unfold expireMoveOne
    cases he : s.entries id <;>
      simp [setCache_caches_self, setEntry_caches, setStaleHead_updating,
        dirListRemove_updating]
  · rw [expireMoveOne_caches_ne _ _ _ _ h]

theorem expireMoveOne_swaped (s : DircacheState) (d d' id : Nat) :
    ((expireMoveOne s d id).caches d').pd_swapedheads =
      (s.caches d').pd_swapedheads := by
  by_cases h : d' = d
  · subst h
    unfold expireMoveOne
    cases he : s.entries id <;>
      simp [setCache_caches_self, setEntry_caches, setStaleHead_swaped,
        dirListRemove_swaped]
  · rw [expireMoveOne_caches_ne _ _ _ _ h]

theorem expireMoveOne_tbl (s : DircacheState) (d id : Nat) :
    (expireMoveOne s d id).pdp_tbl = s.pdp_tbl := by
  unfold expireMoveOne
  cases he : s.entries id <;> rfl

theorem expireMoveOne_enctbl (s : DircacheState) (d id : Nat) :
    (expireMoveOne s d id).pdp_enctbl = s.pdp_enctbl := by
  unfold expireMoveOne
  cases he : s.entries id <;> rfl

theorem expireMoveOne_hashmask (s : DircacheState) (d id : Nat) :
    (expireMoveOne s d id).dircache_hashmask = s.dircache_hashmask := by
  unfold expireMoveOne
  cases he : s.entries id <;> rfl

theorem expireMoveOne_isSome (s : DircacheState) (d id i : Nat) :
    ((expireMoveOne s d id).entries i).isSome = (s.entries i).isSome := by
  unfold expireMoveOne
  cases he : s.entries id
  · rfl
  · show ((setEntry s id _).entries i).isSome = _
    by_cases hi : i = id
    · subst hi
      rw [setEntry_entries_self, he]
      rfl
    · rw [setEntry_entries_ne _ _ _ _ hi]

theorem expireMoveOne_active (s : DircacheState) (d id : Nat) :
    DIRCACHE_ACTIVEHEAD ((expireMoveOne s d id).caches d) =
      listRemove (DIRCACHE_ACTIVEHEAD (s.caches d)) id := by
  unfold expireMoveOne
  cases he : s.entries id <;>
    simp [setCache_caches_self, setEntry_caches, activehead_setStaleHead,
      activehead_dirListRemove]

theorem expireMoveOne_stale_mem (s : DircacheState) (d id x : Nat) :
    (x ∈ DIRCACHE_STALEHEAD ((expireMoveOne s d id).caches d)) ↔
      (x = id ∨ x ∈ DIRCACHE_STALEHEAD (s.caches d)) := by
  unfold expireMoveOne
  cases he : s.entries id <;>
    · simp only [setCache_caches_self, setEntry_caches, stalehead_setStaleHead,
        stalehead_dirListRemove, List.mem_cons, listRemove, List.mem_filter,
        bne_iff_ne, ne_eq, decide_eq_true_eq]
      constructor
      · rintro (h | ⟨h, _⟩)
        · exact Or.inl h
        · exact Or.inr h
      · rintro (h | h)
        · exact Or.inl h
        · by_cases hx : x = id
          · exact Or.inl hx
          · exact Or.inr ⟨h, hx⟩

theorem expireMove_caches_ne (s : DircacheState) (d d' : Nat) (l : List Nat)
    (h : d' ≠ d) : (expireMove s d l).caches d' = s.caches d' := by
  induction l generalizing s with
  | nil => rfl
  | cons id rest ih =>
    show (expireMove (expireMoveOne s d id) d rest).caches d' = _
    rw [ih, expireMoveOne_caches_ne _ _ _ _ h]

theorem expireMove_gen (s : DircacheState) (d d' : Nat) (l : List Nat) :
    ((expireMove s d l).caches d').pd_gen = (s.caches d').pd_gen := by
  induction l generalizing s with
  | nil => rfl
  | cons id rest ih =>
    show ((expireMove (expireMoveOne s d id) d rest).caches d').pd_gen = _
    rw [ih, expireMoveOne_gen]

theorem expireMove_updating (s : DircacheState) (d d' : Nat) (l : List Nat) :
    ((expireMove s d l).caches d').pd_updating = (s.caches d').pd_updating := by
  induction l generalizing s with
  | nil => rfl
  | cons id rest ih =>
    show ((expireMove (expireMoveOne s d id) d rest).caches d').pd_updating = _
    rw [ih, expireMoveOne_updating]

theorem expireMove_tbl (s : DircacheState) (d : Nat) (l : List Nat) :
    (expireMove s d l).pdp_tbl = s.pdp_tbl := by
  induction l generalizing s with
  | nil => rfl
  | cons id rest ih =>
    show (expireMove (expireMoveOne s d id) d rest).pdp_tbl = _
    rw [ih, expireMoveOne_tbl]

theorem expireMove_enctbl (s : DircacheState) (d : Nat) (l : List Nat) :
    (expireMove s d l).pdp_enctbl = s.pdp_enctbl := by
  induction l generalizing s with
  | nil => rfl
  | cons id rest ih =>
    show (expireMove (expireMoveOne s d id) d rest).pdp_enctbl = _
    rw [ih, expireMoveOne_enctbl]

theorem expireMove_hashmask (s : DircacheState) (d : Nat) (l : List Nat) :
    (expireMove s d l).dircache_hashmask = s.dircache_hashmask := by
  induction l generalizing s with
  | nil => rfl
  | cons id rest ih =>
    show (expireMove (expireMoveOne s d id) d rest).dircache_hashmask = _
    rw [ih, expireMoveOne_hashmask]

theorem expireMove_isSome (s : DircacheState) (d i : Nat) (l : List Nat) :
    ((expireMove s d l).entries i).isSome = (s.entries i).isSome := by
  induction l generalizing s with
  | nil => rfl
  | cons id rest ih =>
    show ((expireMove (expireMoveOne s d id) d rest).entries i).isSome = _
    rw [ih, expireMoveOne_isSome]

theorem expireMove_active_nil (s : DircacheState) (d : Nat) (l : List Nat)
    (hsub : ∀ x ∈ DIRCACHE_ACTIVEHEAD (s.caches d), x ∈ l) :
    DIRCACHE_ACTIVEHEAD ((expireMove s d l).caches d) = [] := by
  induction l generalizing s with
  | nil =>
    cases hl : DIRCACHE_ACTIVEHEAD (s.caches d) with
    | nil => exact hl
    | cons y ys => exact absurd (hsub y (by rw [hl]; exact List.mem_cons_self y ys)) (by simp)
  | cons id rest ih =>
    show DIRCACHE_ACTIVEHEAD ((expireMove (expireMoveOne s d id) d rest).caches d) = []
    apply ih
    intro x hx
    rw [expireMoveOne_active] at hx
    simp only [listRemove, List.mem_filter, bne_iff_ne, ne_eq,
      decide_eq_true_eq] at hx
    have := hsub x hx.1
    simp only [List.mem_cons] at this
    exact this.resolve_left hx.2

theorem expireMove_stale_mem (s : DircacheState) (d x : Nat) (l : List Nat) :
    (x ∈ DIRCACHE_STALEHEAD ((expireMove s d l).caches d)) ↔
      (x ∈ l ∨ x ∈ DIRCACHE_STALEHEAD (s.caches d)) := by
  induction l generalizing s with
  | nil => simp [expireMove]
  | cons id rest ih =>
    show (x ∈ DIRCACHE_STALEHEAD ((expireMove (expireMoveOne s d id) d rest).caches d)) ↔ _
    rw [ih, expireMoveOne_stale_mem]
    simp only [List.mem_cons]
    tauto

theorem dircache_expire_caches_ne (s : DircacheState) (d d' : Nat)
    (h : d' ≠ d) : (dircache_expire s d).caches d' = s.caches d' := by
  unfold dircache_expire
  dsimp only
  split
  · rw [setCache_caches_ne _ _ _ _ h, setCache_caches_ne _ _ _ _ h]
  · rw [expireMove_caches_ne _ _ _ _ h, setCache_caches_ne _ _ _ _ h]

theorem dircache_expire_gen (s : DircacheState) (d : Nat) :
    ((dircache_expire s d).caches d).pd_gen = 0 := by
  unfold dircache_expire
  dsimp only
  split
  · rw [setCache_caches_self]
  · rw [expireMove_gen, setCache_caches_self]

theorem dircache_expire_updating (s : DircacheState) (d : Nat) :
    ((dircache_expire s d).caches d).pd_updating = (s.caches d).pd_updating := by
  unfold dircache_expire
  dsimp only
  split
  · rw [setCache_caches_self]
  · rw [expireMove_updating, setCache_caches_self]

theorem dircache_expire_tbl (s : DircacheState) (d : Nat) :
    (dircache_expire s d).pdp_tbl = s.pdp_tbl := by
  unfold dircache_expire
  dsimp only
  split
  · rfl
  · rw [expireMove_tbl]; rfl

theorem dircache_expire_enctbl (s : DircacheState) (d : Nat) :
    (dircache_expire s d).pdp_enctbl = s.pdp_enctbl := by
  unfold dircache_expire
  dsimp only
  split
  · rfl
  · rw [expireMove_enctbl]; rfl

theorem dircache_expire_hashmask (s : DircacheState) (d : Nat) :
    (dircache_expire s d).dircache_hashmask = s.dircache_hashmask := by
  unfold dircache_expire
  dsimp only
  split
  · rfl
  · rw [expireMove_hashmask]; rfl

theorem dircache_expire_isSome (s : DircacheState) (d i : Nat) :
    ((dircache_expire s d).entries i).isSome = (s.entries i).isSome := by
  unfold dircache_expire
  dsimp only
  split
  · rfl
  · rw [expireMove_isSome]; rfl

/-! ### Lemmas about `dircache_entry_free` / `freeList` -/

/-- An id whose arena slot holds an entry of cache `d`. -/
def ownedBy (s : DircacheState) (id d : Nat) : Bool :=
  match s.entries id with
  | none => false
  | some e => e.pde_dircache == d

theorem free_none (s : DircacheState) (id : Nat)
    (he : s.entries id = none) : dircache_entry_free s id = s := by
  unfold dircache_entry_free
  rw [he]

theorem free_some_entries (s : DircacheState) (id : Nat)
    (e : pefs_dircache_entry) (he : s.entries id = some e) :
    (dircache_entry_free s id).entries =
      fun i => if i = id then none else s.entries i := by
  unfold dircache_entry_free
  rw [he]
  simp only [setEntry, setEncTbl, setTbl, setCache]

theorem free_some_caches (s : DircacheState) (id : Nat)
    (e : pefs_dircache_entry) (he : s.entries id = some e) :
    (dircache_entry_free s id).caches =
      fun i => if i = e.pde_dircache then
          dirListRemove (s.caches e.pde_dircache) id
        else s.caches i := by
  unfold dircache_entry_free
  rw [he]
  simp only [setEntry, setEncTbl, setTbl, setCache]

theorem free_some_tbl (s : DircacheState) (id : Nat)
    (e : pefs_dircache_entry) (he : s.entries id = some e) :
    (dircache_entry_free s id).pdp_tbl =
      fun j => if j = tblIdx s e.pde_namehash then
          listRemove (s.pdp_tbl j) id
        else s.pdp_tbl j := by
  unfold dircache_entry_free
  rw [he]
  simp only [setEntry, setEncTbl, setTbl, setCache, tblIdx]
  funext j
  by_cases hj : j = e.pde_namehash &&& s.dircache_hashmask
  · subst hj; simp
  · simp [hj]

theorem free_some_enctbl (s : DircacheState) (id : Nat)
    (e : pefs_dircache_entry) (he : s.entries id = some e) :
    (dircache_entry_free s id).pdp_enctbl =
      fun j => if j = tblIdx s e.pde_encnamehash then
          listRemove (s.pdp_enctbl j) id
        else s.pdp_enctbl j := by
  unfold dircache_entry_free
  rw [he]
  simp only [setEntry, setEncTbl, setTbl, setCache, tblIdx]
  funext j
  by_cases hj : j = e.pde_encnamehash &&& s.dircache_hashmask
  · subst hj; simp
  · simp [hj]

theorem free_hashmask (s : DircacheState) (id : Nat) :
    (dircache_entry_free s id).dircache_hashmask = s.dircache_hashmask := by
  unfold dircache_entry_free
  cases he : s.entries id <;> rfl

theorem free_entries_self (s : DircacheState) (id : Nat) :
    (dircache_entry_free s id).entries id = none := by
  cases he : s.entries id with
  | none => rw [free_none s id he, he]
  | some e => rw [free_some_entries s id e he]; simp

theorem free_entries_ne (s : DircacheState) (id i : Nat) (hi : i ≠ id) :
    (dircache_entry_free s id).entries i = s.entries i := by
  cases he : s.entries id with
  | none => rw [free_none s id he]
  | some e => rw [free_some_entries s id e he]; simp [hi]

theorem free_caches_cases (s : DircacheState) (id d : Nat) :
    (dircache_entry_free s id).caches d = s.caches d ∨
      (dircache_entry_free s id).caches d = dirListRemove (s.caches d) id := by
  cases he : s.entries id with
  | none => left; rw [free_none s id he]
  | some e =>
    rw [free_some_caches s id e he]
    by_cases hd : d = e.pde_dircache
    · right; subst hd; simp
    · left; simp [hd]

theorem free_gen (s : DircacheState) (id d : Nat) :
    ((dircache_entry_free s id).caches d).pd_gen = (s.caches d).pd_gen := by
  rcases free_caches_cases s id d with h | h <;> rw [h]
  rw [dirListRemove_gen]

theorem free_updating (s : DircacheState) (id d : Nat) :
    ((dircache_entry_free s id).caches d).pd_updating =
      (s.caches d).pd_updating := by
  rcases free_caches_cases s id d with h | h <;> rw [h]
  rw [dirListRemove_updating]

theorem free_swaped (s : DircacheState) (id d : Nat) :
    ((dircache_entry_free s id).caches d).pd_swapedheads =
      (s.caches d).pd_swapedheads := by
  rcases free_caches_cases s id d with h | h <;> rw [h]
  rw [dirListRemove_swaped]

theorem free_head0_sub (s : DircacheState) (id d x : Nat)
    (hx : x ∈ ((dircache_entry_free s id).caches d).pd_head0) :
    x ∈ (s.caches d).pd_head0 := by
  rcases free_caches_cases s id d with h | h
  · rwa [h] at hx
  · rw [h] at hx
    exact List.mem_of_mem_filter hx

theorem free_head1_sub (s : DircacheState) (id d x : Nat)
    (hx : x ∈ ((dircache_entry_free s id).caches d).pd_head1) :
    x ∈ (s.caches d).pd_head1 := by
  rcases free_caches_cases s id d with h | h
  · rwa [h] at hx
  · rw [h] at hx
    exact List.mem_of_mem_filter hx

theorem free_owned_not_mem (s : DircacheState) (id d : Nat)
    (hown : ownedBy s id d = true) :
    id ∉ ((dircache_entry_free s id).caches d).pd_head0 ∧
      id ∉ ((dircache_entry_free s id).caches d).pd_head1 := by
  unfold ownedBy at hown
  cases he : s.entries id with
  | none => rw [he] at hown; simp at hown
  | some e =>
    rw [he] at hown
    have hd : e.pde_dircache = d := by simpa using hown
    rw [free_some_caches s id e he, hd]
    simp [dirListRemove, listRemove]

theorem freeList_hashmask (s : DircacheState) (l : List Nat) :
    (freeList s l).dircache_hashmask = s.dircache_hashmask := by
  induction l generalizing s with
  | nil => rfl
  | cons id rest ih =>
    show (freeList (dircache_entry_free s id) rest).dircache_hashmask = _
    rw [ih, free_hashmask]

theorem freeList_entries_none (s : DircacheState) (l : List Nat) (i : Nat)
    (hi : s.entries i = none) : (freeList s l).entries i = none := by
  induction l generalizing s with
  | nil => exact hi
  | cons id rest ih =>
    show (freeList (dircache_entry_free s id) rest).entries i = none
    apply ih
    by_cases h : i = id
    · subst h; exact free_entries_self s i
    · rw [free_entries_ne s id i h]; exact hi

theorem freeList_entries_mem_none (s : DircacheState) (l : List Nat) (i : Nat)
    (hi : i ∈ l) : (freeList s l).entries i = none := by
  induction l generalizing s with
  | nil => cases hi
  | cons id rest ih =>
    show (freeList (dircache_entry_free s id) rest).entries i = none
    by_cases h : i ∈ rest
    · exact ih _ h
    · have : i = id := by
        rcases List.mem_cons.mp hi with h' | h'
        · exact h'
        · exact absurd h' h
      subst this
      exact freeList_entries_none _ _ _ (free_entries_self s i)

theorem freeList_entries_not_mem (s : DircacheState) (l : List Nat) (i : Nat)
    (hi : i ∉ l) : (freeList s l).entries i = s.entries i := by
  induction l generalizing s with
  | nil => rfl
  | cons id rest ih =>
    show (freeList (dircache_entry_free s id) rest).entries i = _
    have h1 : i ∉ rest := fun h => hi (List.mem_cons_of_mem _ h)
    have h2 : i ≠ id := fun h => hi (h ▸ List.mem_cons_self _ _)
    rw [ih _ h1, free_entries_ne s id i h2]

theorem freeList_gen (s : DircacheState) (l : List Nat) (d : Nat) :
    ((freeList s l).caches d).pd_gen = (s.caches d).pd_gen := by
  induction l generalizing s with
  | nil => rfl
  | cons id rest ih =>
    show ((freeList (dircache_entry_free s id) rest).caches d).pd_gen = _
    rw [ih, free_gen]

theorem freeList_updating (s : DircacheState) (l : List Nat) (d : Nat) :
    ((freeList s l).caches d).pd_updating = (s.caches d).pd_updating := by
  induction l generalizing s with
  | nil => rfl
  | cons id rest ih =>
    show ((freeList (dircache_entry_free s id) rest).caches d).pd_updating = _
    rw [ih, free_updating]

theorem freeList_swaped (s : DircacheState) (l : List Nat) (d : Nat) :
    ((freeList s l).caches d).pd_swapedheads = (s.caches d).pd_swapedheads := by
  induction l generalizing s with
  | nil => rfl
  | cons id rest ih =>
    show ((freeList (dircache_entry_free s id) rest).caches d).pd_swapedheads = _
    rw [ih, free_swaped]

theorem freeList_head0_sub (s : DircacheState) (l : List Nat) (d x : Nat)
    (hx : x ∈ ((freeList s l).caches d).pd_head0) :
    x ∈ (s.caches d).pd_head0 := by
  induction l generalizing s with
  | nil => exact hx
  | cons id rest ih =>
    exact free_head0_sub s id d x (ih (dircache_entry_free s id) hx)

theorem freeList_head1_sub (s : DircacheState) (l : List Nat) (d x : Nat)
    (hx : x ∈ ((freeList s l).caches d).pd_head1) :
    x ∈ (s.caches d).pd_head1 := by
  induction l generalizing s with
  | nil => exact hx
  | cons id rest ih =>
    exact free_head1_sub s id d x (ih (dircache_entry_free s id) hx)

theorem freeList_owned_not_mem (s : DircacheState) (l : List Nat) (d x : Nat)
    (hx : x ∈ l) (hown : ownedBy s x d = true) :
    x ∉ ((freeList s l).caches d).pd_head0 ∧
      x ∉ ((freeList s l).caches d).pd_head1 := by
  induction l generalizing s with
  | nil => cases hx
  | cons id rest ih =>
    show x ∉ ((freeList (dircache_entry_free s id) rest).caches d).pd_head0 ∧ _
    by_cases hxi : x = id
    · subst hxi
      have hnm := free_owned_not_mem s x d hown
      constructor
      · intro hmem
        exact hnm.1 (freeList_head0_sub _ rest d x hmem)
      · intro hmem
        exact hnm.2 (freeList_head1_sub _ rest d x hmem)
    · have hrest : x ∈ rest := by
        rcases List.mem_cons.mp hx with h | h
        · exact absurd h hxi
        · exact h
      have hown' : ownedBy (dircache_entry_free s id) x d = true := by
        unfold ownedBy
        rw [free_entries_ne s id x hxi]
        exact hown
      exact ih _ hrest hown'

theorem freeList_active_empty (s : DircacheState) (d : Nat) (l : List Nat)
    (hsub : ∀ x ∈ DIRCACHE_ACTIVEHEAD (s.caches d), x ∈ l)
    (hown : ∀ x ∈ l, ownedBy s x d = true) :
    DIRCACHE_ACTIVEHEAD ((freeList s l).caches d) = [] := by
  rw [List.eq_nil_iff_forall_not_mem]
  intro x hx
  have hsw := freeList_swaped s l d
  unfold DIRCACHE_ACTIVEHEAD at hx hsub
  rw [hsw] at hx
  cases h : (s.caches d).pd_swapedheads
  · rw [h] at hx hsub
    simp only [Bool.false_eq_true, if_false] at hx hsub
    have hl := hsub x (freeList_head0_sub s l d x hx)
    exact (freeList_owned_not_mem s l d x hl (hown x hl)).1 hx
  · rw [h] at hx hsub
    simp only [if_true] at hx hsub
    have hl := hsub x (freeList_head1_sub s l d x hx)
    exact (freeList_owned_not_mem s l d x hl (hown x hl)).2 hx

theorem freeList_stale_empty (s : DircacheState) (d : Nat) (l : List Nat)
    (hsub : ∀ x ∈ DIRCACHE_STALEHEAD (s.caches d), x ∈ l)
    (hown : ∀ x ∈ l, ownedBy s x d = true) :
    DIRCACHE_STALEHEAD ((freeList s l).caches d) = [] := by
  rw [List.eq_nil_iff_forall_not_mem]
  intro x hx
  have hsw := freeList_swaped s l d
  unfold DIRCACHE_STALEHEAD at hx hsub
  rw [hsw] at hx
  cases h : (s.caches d).pd_swapedheads
  · rw [h] at hx hsub
    simp only [Bool.false_eq_true, if_false] at hx hsub
    have hl := hsub x (freeList_head1_sub s l d x hx)
    exact (freeList_owned_not_mem s l d x hl (hown x hl)).2 hx
  · rw [h] at hx hsub
    simp only [if_true] at hx hsub
    have hl := hsub x (freeList_head0_sub s l d x hx)
    exact (freeList_owned_not_mem s l d x hl (hown x hl)).1 hx

/-! ### Lemmas about `dircache_update_core` -/

theorem update_core_isSome (s : DircacheState) (id : Nat) (b : Bool) (i : Nat) :
    ((dircache_update_core s id b).entries i).isSome = (s.entries i).isSome := by
  unfold dircache_update_core
  cases he : s.entries id with
  | none => rfl
  | some pde =>
    dsimp only
    split
    · rw [setCache_entries]
      by_cases hi : i = id
      · subst hi
        rw [setEntry_entries_self, he]
        rfl
      · rw [setEntry_entries_ne _ _ _ _ hi]
    · split
      · cases he1 : (dircache_expire s pde.pde_dircache).entries id with
        | none =>
          exfalso
          have h2 := dircache_expire_isSome s pde.pde_dircache id
          rw [he1, he] at h2
          exact Bool.false_ne_true h2
        | some pde1 =>
          dsimp only
          have key : ∀ j, ((setEntry (dircache_expire s pde.pde_dircache) id
              (some { pde1 with pde_gen := 0 })).entries j).isSome =
              (s.entries j).isSome := by
            intro j
            by_cases hj : j = id
            · subst hj
              rw [setEntry_entries_self, he]
              rfl
            · rw [setEntry_entries_ne _ _ _ _ hj, dircache_expire_isSome]
          split
          · exact key i
          · rw [setCache_entries]
            exact key i
      · rfl

/-! ### Claim theorems -/

/-- C6: calling `pefs_dircache_beginupdate` twice consecutively with the same
generation token is idempotent: the second call observes `gen = cache.gen`
(or `gen = 0`) and is a complete no-op — no expiry, `pd_gen` unchanged, the
entry lists unchanged (the whole state is unchanged). -/
theorem C6_beginupdate_idempotent (s : DircacheState) (d g : Nat) :
    pefs_dircache_beginupdate (pefs_dircache_beginupdate s d g) d g =
      pefs_dircache_beginupdate s d g := by
  by_cases hc : g ≠ 0 ∧ (s.caches d).pd_gen ≠ g
  · have hgen : ((pefs_dircache_beginupdate s d g).caches d).pd_gen = g := by
      unfold pefs_dircache_beginupdate
      dsimp only
      rw [if_pos hc, setCache_caches_self]
    set s' := pefs_dircache_beginupdate s d g with hs'
    show pefs_dircache_beginupdate s' d g = s'
    unfold pefs_dircache_beginupdate
    dsimp only
    rw [if_neg]
    intro hcon
    exact hcon.2 hgen
  · have h1 : pefs_dircache_beginupdate s d g = s := by
      unfold pefs_dircache_beginupdate
      dsimp only
      rw [if_neg hc]
    rw [h1, h1]

/-- C8: `pefs_dircache_insert` hits the fatal `panic` branch exactly when the
plaintext or encrypted name length is zero or at least the fixed buffer
size; with both lengths in range the fatal branch is unreachable and a new
entry (at the fresh id) is returned and present in the arena. -/
theorem C8_insert_length_fatal (s : DircacheState) (d k : Nat)
    (name encname : List Nat) :
    (pefs_dircache_insert s d k name encname = none ↔
      name.length = 0 ∨ name.length ≥ PEFS_DIRCACHE_NAMEBUF ∨
      encname.length = 0 ∨ encname.length ≥ PEFS_DIRCACHE_NAMEBUF) ∧
    (¬(name.length = 0 ∨ name.length ≥ PEFS_DIRCACHE_NAMEBUF ∨
        encname.length = 0 ∨ encname.length ≥ PEFS_DIRCACHE_NAMEBUF) →
      ∃ s', pefs_dircache_insert s d k name encname = some (s', s.nextEntryId) ∧
        (s'.entries s.nextEntryId).isSome = true) := by
  by_cases hbad : name.length = 0 ∨ name.length ≥ PEFS_DIRCACHE_NAMEBUF ∨
      encname.length = 0 ∨ encname.length ≥ PEFS_DIRCACHE_NAMEBUF
  · constructor
    · unfold pefs_dircache_insert
      rw [if_pos hbad]
      exact iff_of_true rfl hbad
    · intro hok
      exact absurd hbad hok
  · constructor
    · unfold pefs_dircache_insert
      rw [if_neg hbad]
      simp only [Option.some_ne_none]
      exact iff_of_false (by simp) hbad
    · intro _
      unfold pefs_dircache_insert
      rw [if_neg hbad]
      dsimp only
      refine ⟨_, rfl, ?_⟩
      dsimp only [setEncTbl, setTbl]
      rw [update_core_isSome]
      simp [insertEntryState]

/-- Witness for C8: inserting "foo" / "ABC" (both of valid length 3) into a
fresh system succeeds with the fresh entry id 0. -/
theorem C8_insert_length_fatal_witness :
    ∃ s', pefs_dircache_insert (initState 511) 0 0 nameFoo nameABC =
        some (s', 0) ∧ (s'.entries 0).isSome = true :=
  (C8_insert_length_fatal (initState 511) 0 0 nameFoo nameABC).2 (by decide)

/-- C10 (implicit): while a cache is updating, `pefs_dircache_abortupdate`
leaves its generation counter at 0 (`dircache_expire` zeroes it), so a
`pefs_dircache_beginupdate` issued after the abort with the very same
non-zero token is not a no-op: it starts a fresh update pass (the
`PD_UPDATING` flag is raised again and the generation is stored). -/
theorem C10_abort_zeroes_gen (s : DircacheState) (d g : Nat)
    (hupd : (s.caches d).pd_updating = true) (hg : g ≠ 0) :
    ((pefs_dircache_abortupdate s d).caches d).pd_gen = 0 ∧
    ((pefs_dircache_beginupdate (pefs_dircache_abortupdate s d) d g).caches d).pd_updating
      = true ∧
    ((pefs_dircache_beginupdate (pefs_dircache_abortupdate s d) d g).caches d).pd_gen
      = g := by
  have habort : ((pefs_dircache_abortupdate s d).caches d).pd_gen = 0 := by
    unfold pefs_dircache_abortupdate
    dsimp only
    rw [if_pos hupd, setCache_caches_self]
    show ((dircache_expire s d).caches d).pd_gen = 0
    exact dircache_expire_gen s d
  refine ⟨habort, ?_, ?_⟩ <;>
  · set s' := pefs_dircache_abortupdate s d with hs'
    unfold pefs_dircache_beginupdate
    dsimp only
    rw [if_pos ⟨hg, by rw [habort]; exact fun h => hg h.symm⟩, setCache_caches_self]

/-- Witness for C10 at a concrete updating cache and token 7. -/
theorem C10_abort_zeroes_gen_witness :
    ((pefs_dircache_abortupdate
        { initState 511 with caches := fun _ =>
            { pd_gen := 5, pd_updating := true, pd_swapedheads := false,
              pd_head0 := [], pd_head1 := [] } } 0).caches 0).pd_gen = 0 ∧
    ((pefs_dircache_beginupdate (pefs_dircache_abortupdate
        { initState 511 with caches := fun _ =>
            { pd_gen := 5, pd_updating := true, pd_swapedheads := false,
              pd_head0 := [], pd_head1 := [] } } 0) 0 7).caches 0).pd_updating
      = true ∧
    ((pefs_dircache_beginupdate (pefs_dircache_abortupdate
        { initState 511 with caches := fun _ =>
            { pd_gen := 5, pd_updating := true, pd_swapedheads := false,
              pd_head0 := [], pd_head1 := [] } } 0) 0 7).caches 0).pd_gen
      = 7 :=
  C10_abort_zeroes_gen _ 0 7 rfl (by decide)

/-- Counterexample to C9 as stated: with a configured bucket count of 0 and
the kernel default `desiredvnodes = 64`, `pefs_dircache_init` replaces the
too-small count by `desiredvnodes / 8 = 8` (not by the 512 minimum) and
sizes the table `2 ^ flsl 8 = 16` — below the configured minimum 512, while
the claim promises a size of at least the minimum. -/
theorem C9_counterexample :
    dircache_init_tbl_size 0 64 = 16 ∧
      ¬ DIRCACHE_SIZE_MIN ≤ dircache_init_tbl_size 0 64 := by
  have h : dircache_init_tbl_size 0 64 = 16 := by
    simp [dircache_init_tbl_size, dircache_init_hashmask, dircache_init_buckets,
      DIRCACHE_SIZE_DEFAULT, DIRCACHE_SIZE_MIN, flsl, Nat.log2]
  refine ⟨h, ?_⟩
  rw [h]
  decide

/-- C9 (amended): the bucket-table size used by pool creation is
`2 ^ flsl b` where `b` is the configured count when it is at least the 512
minimum, and otherwise the default `desiredvnodes / 8` (the code replaces a
too-small count by the default, it does not clamp it to the minimum).  That
size is a power of two strictly greater than `b` (the next power of two,
and at most `2 * b + 1`), but it is not necessarily at least the minimum;
both bucket arrays are allocated with exactly that many empty buckets. -/
theorem C9_pool_size_amended (tunable desiredvnodes : Nat) :
    dircache_init_tbl_size tunable desiredvnodes =
      2 ^ flsl (dircache_init_buckets tunable desiredvnodes) ∧
    dircache_init_buckets tunable desiredvnodes <
      dircache_init_tbl_size tunable desiredvnodes ∧
    dircache_init_tbl_size tunable desiredvnodes ≤
      2 * dircache_init_buckets tunable desiredvnodes + 1 ∧
    pefs_dircache_pool_init_tbl (dircache_init_tbl_size tunable desiredvnodes) =
      List.replicate (dircache_init_tbl_size tunable desiredvnodes) [] ∧
    (pefs_dircache_pool_init_tbl
        (dircache_init_tbl_size tunable desiredvnodes)).length =
      dircache_init_tbl_size tunable desiredvnodes := by
  set b := dircache_init_buckets tunable desiredvnodes with hb
  have hsize : dircache_init_tbl_size tunable desiredvnodes = 2 ^ flsl b := by
    unfold dircache_init_tbl_size dircache_init_hashmask
    rw [← hb]
    have h1 : 1 ≤ 2 ^ flsl b := Nat.one_le_two_pow
    omega
  refine ⟨hsize, ?_, ?_, rfl, by simp [pefs_dircache_pool_init_tbl]⟩
  · rw [hsize]
    unfold flsl
    by_cases hb0 : b = 0
    · rw [if_pos hb0, hb0]
      decide
    · rw [if_neg hb0]
      exact (Nat.log2_lt hb0).mp (Nat.lt_succ_self _)
  · rw [hsize]
    unfold flsl
    by_cases hb0 : b = 0
    · rw [if_pos hb0, hb0]
      decide
    · rw [if_neg hb0]
      have h1 : 2 ^ Nat.log2 b ≤ b := Nat.log2_self_le hb0
      have h2 : 2 ^ (Nat.log2 b + 1) = 2 * 2 ^ Nat.log2 b := by ring
      omega

/-! ### Projection lemmas for `insertEntryState` and `dircache_update_core`
branch equations -/

theorem insertEntryState_entries_self (s : DircacheState) (id : Nat)
    (pde : pefs_dircache_entry) :
    (insertEntryState s id pde).entries id = some pde := by
  simp [insertEntryState]

theorem insertEntryState_caches (s : DircacheState) (id : Nat)
    (pde : pefs_dircache_entry) :
    (insertEntryState s id pde).caches = s.caches := rfl

theorem insertEntryState_tbl (s : DircacheState) (id : Nat)
    (pde : pefs_dircache_entry) :
    (insertEntryState s id pde).pdp_tbl = s.pdp_tbl := rfl

theorem insertEntryState_enctbl (s : DircacheState) (id : Nat)
    (pde : pefs_dircache_entry) :
    (insertEntryState s id pde).pdp_enctbl = s.pdp_enctbl := rfl

theorem insertEntryState_hashmask (s : DircacheState) (id : Nat)
    (pde : pefs_dircache_entry) :
    (insertEntryState s id pde).dircache_hashmask = s.dircache_hashmask := rfl

/-- The `PD_UPDATING` branch of `dircache_update` for a fresh entry
(`onlist = 0`): stamp the current generation and push onto the active
head. -/
theorem update_core_updating_new (s : DircacheState) (id : Nat)
    (pde : pefs_dircache_entry) (he : s.entries id = some pde)
    (hu : (s.caches pde.pde_dircache).pd_updating = true) :
    dircache_update_core s id false =
      setCache
        (setEntry s id
          (some { pde with pde_gen := (s.caches pde.pde_dircache).pd_gen }))
        pde.pde_dircache
        (setActiveHead (s.caches pde.pde_dircache)
          (id :: DIRCACHE_ACTIVEHEAD (s.caches pde.pde_dircache))) := by
  unfold dircache_update_core
  rw [he]
  dsimp only
  rw [if_pos hu]
  simp [setEntry]

/-- The `PD_UPDATING` branch of `dircache_update` for a listed entry
(`onlist = 1`): stamp the current generation, unlink, and push onto the
active head. -/
theorem update_core_updating_old (s : DircacheState) (id : Nat)
    (pde : pefs_dircache_entry) (he : s.entries id = some pde)
    (hu : (s.caches pde.pde_dircache).pd_updating = true) :
    dircache_update_core s id true =
      setCache
        (setEntry s id
          (some { pde with pde_gen := (s.caches pde.pde_dircache).pd_gen }))
        pde.pde_dircache
        (setActiveHead (dirListRemove (s.caches pde.pde_dircache) id)
          (id :: DIRCACHE_ACTIVEHEAD
            (dirListRemove (s.caches pde.pde_dircache) id))) := by
  unfold dircache_update_core
  rw [he]
  dsimp only
  rw [if_pos hu]
  simp [setEntry]

/-! ### Stage lemmas for the insert/commit/lookup and eviction scenarios -/

theorem begin_fresh_eq (mask g1 : Nat) (hg1 : g1 ≠ 0) :
    pefs_dircache_beginupdate (pefs_dircache_create (initState mask)).1 0 g1 =
      setCache (pefs_dircache_create (initState mask)).1 0
        ⟨g1, true, false, [], []⟩ := by
  have hc0 : (pefs_dircache_create (initState mask)).1.caches 0 =
      ⟨0, false, false, [], []⟩ := by
    simp [pefs_dircache_create, initState]
  unfold pefs_dircache_beginupdate
  dsimp only
  rw [hc0]
  rw [if_pos ⟨hg1, Ne.symm hg1⟩]
  rw [if_neg (by simp [DIRCACHE_ACTIVEHEAD])]
  rw [hc0]

theorem insert_stage (S : DircacheState) (d k g : Nat) (name enc : List Nat)
    (hlen : ¬(name.length = 0 ∨ name.length ≥ PEFS_DIRCACHE_NAMEBUF ∨
        enc.length = 0 ∨ enc.length ≥ PEFS_DIRCACHE_NAMEBUF))
    (hc : S.caches d = ⟨g, true, false, [], []⟩) :
    ∃ S2, pefs_dircache_insert S d k name enc = some (S2, S.nextEntryId) ∧
      S2.caches d = ⟨g, true, false, [S.nextEntryId], []⟩ ∧
      S2.entries S.nextEntryId =
        some ⟨d, k, g, dircache_hashname d name, dircache_hashname d enc, name, enc⟩ ∧
      S2.dircache_hashmask = S.dircache_hashmask ∧
      S2.pdp_tbl (tblIdx S2 (dircache_hashname d name)) =
        S.nextEntryId :: S.pdp_tbl (tblIdx S (dircache_hashname d name)) ∧
      S2.pdp_enctbl (tblIdx S2 (dircache_hashname d enc)) =
        S.nextEntryId :: S.pdp_enctbl (tblIdx S (dircache_hashname d enc)) := by
  unfold pefs_dircache_insert
  rw [if_neg hlen]
  dsimp only
  have he : (insertEntryState S S.nextEntryId (mkEntry d k name enc)).entries
      S.nextEntryId = some (mkEntry d k name enc) :=
    insertEntryState_entries_self _ _ _
  have hu : ((insertEntryState S S.nextEntryId (mkEntry d k name enc)).caches
      (mkEntry d k name enc).pde_dircache).pd_updating = true := by
    rw [insertEntryState_caches]
    show (S.caches d).pd_updating = true
    rw [hc]
  rw [update_core_updating_new _ _ _ he hu]
  refine ⟨_, rfl, ?_, ?_, rfl, ?_, ?_⟩
  · show (setCache _ (mkEntry d k name enc).pde_dircache _).caches d = _
    rw [show (mkEntry d k name enc).pde_dircache = d from rfl,
      setCache_caches_self, insertEntryState_caches, hc]
    simp [setActiveHead, DIRCACHE_ACTIVEHEAD]
  · show (setEntry _ S.nextEntryId _).entries S.nextEntryId = _
    rw [setEntry_entries_self, insertEntryState_caches]
    show some ({ mkEntry d k name enc with pde_gen := (S.caches d).pd_gen }) = _
    rw [hc]
    rfl
  · simp only [setEncTbl, setTbl, setCache, setEntry, insertEntryState, tblIdx, mkEntry]
    simp
  · simp only [setEncTbl, setTbl, setCache, setEntry, insertEntryState, tblIdx, mkEntry]
    simp

theorem endupdate_commit_eq (S : DircacheState) (d eid g : Nat)
    (hc : S.caches d = ⟨g, true, false, [eid], []⟩) :
    pefs_dircache_endupdate S d = setCache S d ⟨g, false, false, [eid], []⟩ := by
  unfold pefs_dircache_endupdate
  rw [hc]
  simp only [DIRCACHE_STALEHEAD]
  norm_num [freeList]
  rw [hc]

theorem commit_state_lookup (S : DircacheState) (d eid g : Nat)
    (name enc : List Nat) (pde : pefs_dircache_entry)
    (hc : S.caches d = ⟨g, true, false, [eid], []⟩)
    (hent : S.entries eid = some pde)
    (hhash : pde.pde_namehash = dircache_hashname d name)
    (hdir : pde.pde_dircache = d)
    (hgen : pde.pde_gen = g)
    (hname : pde.pde_name = name)
    (henc : pde.pde_encname = enc)
    (hbucket : S.pdp_tbl (tblIdx S (dircache_hashname d name)) = [eid]) :
    pefs_dircache_lookup (pefs_dircache_endupdate S d) d name = some eid ∧
      Option.map pefs_dircache_entry.pde_encname
        ((pefs_dircache_endupdate S d).entries eid) = some enc := by
  rw [endupdate_commit_eq S d eid g hc]
  constructor
  · unfold pefs_dircache_lookup
    dsimp only
    have hidx : tblIdx (setCache S d ⟨g, false, false, [eid], []⟩)
        (dircache_hashname d name) = tblIdx S (dircache_hashname d name) := by
      unfold tblIdx
      rw [setCache_hashmask]
    rw [setCache_tbl, hidx, hbucket]
    have hm : name_match (setCache S d ⟨g, false, false, [eid], []⟩) d
        (dircache_hashname d name) name eid = true := by
      unfold name_match
      rw [setCache_entries, hent, setCache_caches_self]
      simp [hhash, hdir, hgen, hname]
    simp [List.find?, hm]
  · rw [setCache_entries, hent]
    simp [henc]

theorem second_pass_evicts (S : DircacheState) (d eid g1 g2 : Nat)
    (name : List Nat) (pde : pefs_dircache_entry)
    (hc : S.caches d = ⟨g1, false, false, [eid], []⟩)
    (hent : S.entries eid = some pde)
    (hhash : pde.pde_namehash = dircache_hashname d name)
    (hbucket : S.pdp_tbl (tblIdx S (dircache_hashname d name)) = [eid])
    (hg2 : g2 ≠ 0) (hne : g2 ≠ g1) :
    (pefs_dircache_endupdate (pefs_dircache_beginupdate S d g2) d).entries eid
        = none ∧
      pefs_dircache_lookup
        (pefs_dircache_endupdate (pefs_dircache_beginupdate S d g2) d) d name
        = none := by
  have hB : pefs_dircache_beginupdate S d g2 =
      setCache (setCache (setCache S d ⟨0, false, false, [eid], []⟩) d
          ⟨0, false, true, [eid], []⟩) d ⟨g2, true, true, [eid], []⟩ := by
    unfold pefs_dircache_beginupdate
    dsimp only
    rw [if_pos ⟨hg2, by rw [hc]; exact fun h => hne h.symm⟩]
    rw [if_pos (by rw [hc]; simp [DIRCACHE_ACTIVEHEAD])]
    unfold dircache_expire
    dsimp only
    rw [hc]
    rw [if_pos (by simp [DIRCACHE_STALEHEAD])]
    rw [setCache_caches_self]
    rfl
  set SB := setCache (setCache (setCache S d ⟨0, false, false, [eid], []⟩) d
      ⟨0, false, true, [eid], []⟩) d ⟨g2, true, true, [eid], []⟩ with hSB
  have hSBc : SB.caches d = ⟨g2, true, true, [eid], []⟩ := setCache_caches_self _ _ _
  have hSBe : SB.entries eid = some pde := hent
  have hSBm : SB.dircache_hashmask = S.dircache_hashmask := rfl
  have hSBt : SB.pdp_tbl = S.pdp_tbl := rfl
  have hend : pefs_dircache_endupdate SB d =
      setCache (dircache_entry_free SB eid) d
        { (dircache_entry_free SB eid).caches d with pd_updating := false } := by
    unfold pefs_dircache_endupdate
    dsimp only
    rw [if_pos (by rw [hSBc])]
    rw [show DIRCACHE_STALEHEAD (SB.caches d) = [eid] from by
      rw [hSBc]; simp [DIRCACHE_STALEHEAD]]
    rfl
  rw [hB, hend]
  constructor
  · rw [setCache_entries, free_some_entries SB eid pde hSBe]
    simp
  · unfold pefs_dircache_lookup
    dsimp only
    rw [setCache_tbl, free_some_tbl SB eid pde hSBe]
    have hmask5 : (setCache (dircache_entry_free SB eid) d
        { (dircache_entry_free SB eid).caches d with pd_updating := false
        }).dircache_hashmask = S.dircache_hashmask := by
      rw [setCache_hashmask, free_hashmask]
      rfl
    have hidx : tblIdx (setCache (dircache_entry_free SB eid) d
        { (dircache_entry_free SB eid).caches d with pd_updating := false })
        (dircache_hashname d name) = tblIdx SB pde.pde_namehash := by
      unfold tblIdx
      rw [hmask5, hhash, hSBm]
    rw [hidx]
    simp only [if_pos rfl]
    have hb : SB.pdp_tbl (tblIdx SB pde.pde_namehash) = [eid] := by
      rw [hSBt, hhash]
      exact hbucket
    rw [hb]
    simp [listRemove]

/-- C1: on a fresh directory cache, `beginupdate` with a non-zero generation
differing from the current one, `insert` of the valid pair "foo" / "ABC",
and `endupdate` commit the entry: `pefs_dircache_lookup` for "foo" returns
the inserted entry, whose encrypted name is "ABC". -/
theorem C1_insert_commit_lookup (mask g1 k : Nat) (hg1 : g1 ≠ 0) :
    ∃ s3, pefs_dircache_insert
        (pefs_dircache_beginupdate (pefs_dircache_create (initState mask)).1 0 g1)
        0 k nameFoo nameABC = some (s3, 0) ∧
      pefs_dircache_lookup (pefs_dircache_endupdate s3 0) 0 nameFoo = some 0 ∧
      Option.map pefs_dircache_entry.pde_encname
        ((pefs_dircache_endupdate s3 0).entries 0) = some nameABC := by
  rw [begin_fresh_eq mask g1 hg1]
  obtain ⟨S3, hins, hc3, hent3, hmask3, htbl3, henctbl3⟩ :=
    insert_stage
      (setCache (pefs_dircache_create (initState mask)).1 0 ⟨g1, true, false, [], []⟩)
      0 k g1 nameFoo nameABC (by decide) (setCache_caches_self _ _ _)
  refine ⟨S3, hins, ?_⟩
  exact commit_state_lookup S3 0 0 g1 nameFoo nameABC
    ⟨0, k, g1, dircache_hashname 0 nameFoo, dircache_hashname 0 nameABC,
      nameFoo, nameABC⟩
    hc3 hent3 (by simp) (by simp) (by simp) (by simp) (by simp) htbl3

/-- Witness for C1 at mask 511, generation 1, key 7. -/
theorem C1_insert_commit_lookup_witness :
    ∃ s3, pefs_dircache_insert
        (pefs_dircache_beginupdate (pefs_dircache_create (initState 511)).1 0 1)
        0 7 nameFoo nameABC = some (s3, 0) ∧
      pefs_dircache_lookup (pefs_dircache_endupdate s3 0) 0 nameFoo = some 0 ∧
      Option.map pefs_dircache_entry.pde_encname
        ((pefs_dircache_endupdate s3 0).entries 0) = some nameABC :=
  C1_insert_commit_lookup 511 1 7 (by decide)

/-- C2: continuing from the committed entry of C1, a full second pass
`beginupdate` with a different non-zero generation followed by `endupdate`,
with no insert or reconfirmation in between, frees the entry (its arena
slot is gone) and `pefs_dircache_lookup` then returns not-found. -/
theorem C2_eviction (mask g1 g2 k : Nat) (hg1 : g1 ≠ 0) (hg2 : g2 ≠ 0)
    (hne : g2 ≠ g1) :
    ∃ s3, pefs_dircache_insert
        (pefs_dircache_beginupdate (pefs_dircache_create (initState mask)).1 0 g1)
        0 k nameFoo nameABC = some (s3, 0) ∧
      (pefs_dircache_endupdate (pefs_dircache_beginupdate
          (pefs_dircache_endupdate s3 0) 0 g2) 0).entries 0 = none ∧
      pefs_dircache_lookup (pefs_dircache_endupdate (pefs_dircache_beginupdate
          (pefs_dircache_endupdate s3 0) 0 g2) 0) 0 nameFoo = none := by
  rw [begin_fresh_eq mask g1 hg1]
  obtain ⟨S3, hins, hc3, hent3, hmask3, htbl3, henctbl3⟩ :=
    insert_stage
      (setCache (pefs_dircache_create (initState mask)).1 0 ⟨g1, true, false, [], []⟩)
      0 k g1 nameFoo nameABC (by decide) (setCache_caches_self _ _ _)
  refine ⟨S3, hins, ?_⟩
  rw [endupdate_commit_eq S3 0 0 g1 hc3]
  exact second_pass_evicts (setCache S3 0 ⟨g1, false, false, [0], []⟩) 0 0 g1 g2
    nameFoo
    ⟨0, k, g1, dircache_hashname 0 nameFoo, dircache_hashname 0 nameABC,
      nameFoo, nameABC⟩
    (setCache_caches_self _ _ _) hent3 (by simp) htbl3 hg2 hne

/-- Witness for C2 at mask 511, generations 1 and 2, key 7. -/
theorem C2_eviction_witness :
    ∃ s3, pefs_dircache_insert
        (pefs_dircache_beginupdate (pefs_dircache_create (initState 511)).1 0 1)
        0 7 nameFoo nameABC = some (s3, 0) ∧
      (pefs_dircache_endupdate (pefs_dircache_beginupdate
          (pefs_dircache_endupdate s3 0) 0 2) 0).entries 0 = none ∧
      pefs_dircache_lookup (pefs_dircache_endupdate (pefs_dircache_beginupdate
          (pefs_dircache_endupdate s3 0) 0 2) 0) 0 nameFoo = none :=
  C2_eviction 511 1 2 7 (by decide) (by decide) (by decide)

theorem dircache_expire_active_empty (s : DircacheState) (d : Nat) :
    DIRCACHE_ACTIVEHEAD ((dircache_expire s d).caches d) = [] := by
  unfold dircache_expire
  dsimp only
  split
  · rw [setCache_caches_self]
    rename_i h
    cases hsw : (s.caches d).pd_swapedheads <;>
      simp_all [DIRCACHE_ACTIVEHEAD, DIRCACHE_STALEHEAD]
  · apply expireMove_active_nil
    intro x hx
    rw [setCache_caches_self] at hx
    cases hsw : (s.caches d).pd_swapedheads <;>
      simp only [DIRCACHE_ACTIVEHEAD, hsw] at hx ⊢ <;> exact hx

theorem dircache_expire_stale_mem (s : DircacheState) (d x : Nat) :
    (x ∈ DIRCACHE_STALEHEAD ((dircache_expire s d).caches d)) ↔
      (x ∈ DIRCACHE_ACTIVEHEAD (s.caches d) ∨
        x ∈ DIRCACHE_STALEHEAD (s.caches d)) := by
  unfold dircache_expire
  dsimp only
  split
  · rw [setCache_caches_self]
    rename_i h
    cases hsw : (s.caches d).pd_swapedheads <;>
      simp_all [DIRCACHE_ACTIVEHEAD, DIRCACHE_STALEHEAD]
  · rw [expireMove_stale_mem]
    rw [setCache_caches_self]
    cases hsw : (s.caches d).pd_swapedheads <;>
      simp only [DIRCACHE_ACTIVEHEAD, DIRCACHE_STALEHEAD, hsw]

theorem activehead_set_updating (pd : pefs_dircache) (u : Bool) :
    DIRCACHE_ACTIVEHEAD { pd with pd_updating := u } = DIRCACHE_ACTIVEHEAD pd := by
  cases hsw : pd.pd_swapedheads <;> simp [DIRCACHE_ACTIVEHEAD, hsw]

theorem stalehead_set_updating (pd : pefs_dircache) (u : Bool) :
    DIRCACHE_STALEHEAD { pd with pd_updating := u } = DIRCACHE_STALEHEAD pd := by
  cases hsw : pd.pd_swapedheads <;> simp [DIRCACHE_STALEHEAD, hsw]

theorem stalehead_set_gen_updating (pd : pefs_dircache) (g : Nat) (u : Bool) :
    DIRCACHE_STALEHEAD { pd with pd_gen := g, pd_updating := u } =
      DIRCACHE_STALEHEAD pd := by
  cases hsw : pd.pd_swapedheads <;> simp [DIRCACHE_STALEHEAD, hsw]

/-- C4: while a cache is updating, `pefs_dircache_abortupdate` frees no
entry — every arena slot's occupancy is unchanged and both pool tables are
untouched — it demotes every listed entry to the stale list (the active list
becomes empty, the stale list holds exactly the union of the two lists) and
clears `PD_UPDATING`; and a later full pass (`beginupdate` with a non-zero
token, then `endupdate`) that does not reconfirm an entry left on the stale
list frees it at that `endupdate`. -/
theorem C4_abort_nondestructive (s : DircacheState) (d : Nat)
    (hupd : (s.caches d).pd_updating = true) :
    (∀ i, ((pefs_dircache_abortupdate s d).entries i).isSome =
        (s.entries i).isSome) ∧
    ((pefs_dircache_abortupdate s d).caches d).pd_updating = false ∧
    DIRCACHE_ACTIVEHEAD ((pefs_dircache_abortupdate s d).caches d) = [] ∧
    (∀ x, (x ∈ DIRCACHE_STALEHEAD ((pefs_dircache_abortupdate s d).caches d)) ↔
      (x ∈ DIRCACHE_ACTIVEHEAD (s.caches d) ∨
        x ∈ DIRCACHE_STALEHEAD (s.caches d))) ∧
    (pefs_dircache_abortupdate s d).pdp_tbl = s.pdp_tbl ∧
    (pefs_dircache_abortupdate s d).pdp_enctbl = s.pdp_enctbl ∧
    (∀ g, g ≠ 0 →
      ∀ x ∈ DIRCACHE_STALEHEAD ((pefs_dircache_abortupdate s d).caches d),
        (pefs_dircache_endupdate
          (pefs_dircache_beginupdate (pefs_dircache_abortupdate s d) d g) d).entries
          x = none) := by
  have habort : pefs_dircache_abortupdate s d =
      setCache (dircache_expire s d) d
        { (dircache_expire s d).caches d with pd_updating := false } := by
    unfold pefs_dircache_abortupdate
    dsimp only
    rw [if_pos hupd]
  have hAu : ((pefs_dircache_abortupdate s d).caches d).pd_updating = false := by
    rw [habort, setCache_caches_self]
  have hAactive :
      DIRCACHE_ACTIVEHEAD ((pefs_dircache_abortupdate s d).caches d) = [] := by
    rw [habort, setCache_caches_self, activehead_set_updating]
    exact dircache_expire_active_empty s d
  have hAgen : ((pefs_dircache_abortupdate s d).caches d).pd_gen = 0 := by
    rw [habort, setCache_caches_self]
    show ((dircache_expire s d).caches d).pd_gen = 0
    exact dircache_expire_gen s d
  have hAstale : ∀ x,
      (x ∈ DIRCACHE_STALEHEAD ((pefs_dircache_abortupdate s d).caches d)) ↔
      (x ∈ DIRCACHE_ACTIVEHEAD (s.caches d) ∨
        x ∈ DIRCACHE_STALEHEAD (s.caches d)) := by
    intro x
    rw [habort, setCache_caches_self, stalehead_set_updating]
    exact dircache_expire_stale_mem s d x
  refine ⟨?_, hAu, hAactive, hAstale, ?_, ?_, ?_⟩
  · intro i
    rw [habort, setCache_entries, dircache_expire_isSome]
  · rw [habort, setCache_tbl, dircache_expire_tbl]
  · rw [habort, setCache_enctbl, dircache_expire_enctbl]
  · intro g hg x hx
    have hbegin : pefs_dircache_beginupdate (pefs_dircache_abortupdate s d) d g =
        setCache (pefs_dircache_abortupdate s d) d
          { (pefs_dircache_abortupdate s d).caches d with
              pd_gen := g, pd_updating := true } := by
      unfold pefs_dircache_beginupdate
      dsimp only
      rw [if_pos ⟨hg, by rw [hAgen]; exact fun h => hg h.symm⟩]
      rw [if_neg (by rw [hAactive]; simp)]
    rw [hbegin]
    unfold pefs_dircache_endupdate
    dsimp only
    rw [if_pos (by rw [setCache_caches_self])]
    rw [setCache_entries]
    have hL : DIRCACHE_STALEHEAD ((setCache (pefs_dircache_abortupdate s d) d
        { (pefs_dircache_abortupdate s d).caches d with
            pd_gen := g, pd_updating := true }).caches d) =
        DIRCACHE_STALEHEAD ((pefs_dircache_abortupdate s d).caches d) := by
      rw [setCache_caches_self, stalehead_set_gen_updating]
    rw [hL]
    exact freeList_entries_mem_none _ _ _ hx

/-- A concrete mid-update cache used to witness the abort claim: generation
3, updating, one active entry id 4. -/
def abortWitnessState : DircacheState :=
  { initState 7 with caches := fun _ => ⟨3, true, false, [4], []⟩ }

/-- Witness for C4 at `abortWitnessState`. -/
theorem C4_abort_nondestructive_witness :
    (∀ i, ((pefs_dircache_abortupdate abortWitnessState 0).entries i).isSome =
        (abortWitnessState.entries i).isSome) ∧
    ((pefs_dircache_abortupdate abortWitnessState 0).caches 0).pd_updating = false ∧
    DIRCACHE_ACTIVEHEAD ((pefs_dircache_abortupdate abortWitnessState 0).caches 0) = [] ∧
    (∀ x, (x ∈ DIRCACHE_STALEHEAD
        ((pefs_dircache_abortupdate abortWitnessState 0).caches 0)) ↔
      (x ∈ DIRCACHE_ACTIVEHEAD (abortWitnessState.caches 0) ∨
        x ∈ DIRCACHE_STALEHEAD (abortWitnessState.caches 0))) ∧
    (pefs_dircache_abortupdate abortWitnessState 0).pdp_tbl =
      abortWitnessState.pdp_tbl ∧
    (pefs_dircache_abortupdate abortWitnessState 0).pdp_enctbl =
      abortWitnessState.pdp_enctbl ∧
    (∀ g, g ≠ 0 →
      ∀ x ∈ DIRCACHE_STALEHEAD
          ((pefs_dircache_abortupdate abortWitnessState 0).caches 0),
        (pefs_dircache_endupdate
          (pefs_dircache_beginupdate
            (pefs_dircache_abortupdate abortWitnessState 0) 0 g) 0).entries
          x = none) :=
  C4_abort_nondestructive abortWitnessState 0 rfl

/-- The body of the `DIRCACHE_ASSERT` debug macro: at most one of the two
list heads is non-empty. -/
def DIRCACHE_ASSERT_prop (pd : pefs_dircache) : Prop :=
  pd.pd_head0 = [] ∨ pd.pd_head1 = []

/-- The claimed invariant: whenever `PD_UPDATING` is clear, at most one of
the two entry lists is non-empty. -/
def dcIdleInv (pd : pefs_dircache) : Prop :=
  pd.pd_updating = false → DIRCACHE_ASSERT_prop pd

theorem assert_of_active_empty (pd : pefs_dircache)
    (h : DIRCACHE_ACTIVEHEAD pd = []) : DIRCACHE_ASSERT_prop pd := by
  unfold DIRCACHE_ACTIVEHEAD at h
  unfold DIRCACHE_ASSERT_prop
  cases hsw : pd.pd_swapedheads <;> rw [hsw] at h <;> simp at h <;> simp [h]

theorem assert_of_stale_empty (pd : pefs_dircache)
    (h : DIRCACHE_STALEHEAD pd = []) : DIRCACHE_ASSERT_prop pd := by
  unfold DIRCACHE_STALEHEAD at h
  unfold DIRCACHE_ASSERT_prop
  cases hsw : pd.pd_swapedheads <;> rw [hsw] at h <;> simp at h <;> simp [h]

theorem freeList_active_sub (s : DircacheState) (l : List Nat) (d x : Nat)
    (hx : x ∈ DIRCACHE_ACTIVEHEAD ((freeList s l).caches d)) :
    x ∈ DIRCACHE_ACTIVEHEAD (s.caches d) := by
  unfold DIRCACHE_ACTIVEHEAD at hx ⊢
  rw [freeList_swaped] at hx
  cases hsw : (s.caches d).pd_swapedheads <;> rw [hsw] at hx <;> simp at hx ⊢
  · exact freeList_head0_sub s l d x hx
  · exact freeList_head1_sub s l d x hx

theorem freeList_stale_sub (s : DircacheState) (l : List Nat) (d x : Nat)
    (hx : x ∈ DIRCACHE_STALEHEAD ((freeList s l).caches d)) :
    x ∈ DIRCACHE_STALEHEAD (s.caches d) := by
  unfold DIRCACHE_STALEHEAD at hx ⊢
  rw [freeList_swaped] at hx
  cases hsw : (s.caches d).pd_swapedheads <;> rw [hsw] at hx <;> simp at hx ⊢
  · exact freeList_head1_sub s l d x hx
  · exact freeList_head0_sub s l d x hx

theorem update_core_idle_inv (s : DircacheState) (id : Nat) (b : Bool) (d : Nat)
    (hinv : dcIdleInv (s.caches d)) :
    dcIdleInv ((dircache_update_core s id b).caches d) := by
  unfold dircache_update_core
  cases he : s.entries id with
  | none => exact hinv
  | some pde =>
    dsimp only
    split
    · rename_i hu
      by_cases hd : d = pde.pde_dircache
      · subst hd
        rw [setCache_caches_self]
        intro hfalse
        rw [setActiveHead_updating] at hfalse
        exfalso
        split at hfalse
        · rw [dirListRemove_updating, setEntry_caches, hu] at hfalse
          cases hfalse
        · rw [setEntry_caches, hu] at hfalse
          cases hfalse
      · rw [setCache_caches_ne _ _ _ _ hd, setEntry_caches]
        exact hinv
    · split
      · cases he1 : (dircache_expire s pde.pde_dircache).entries id with
        | none =>
          dsimp only
          by_cases hd : d = pde.pde_dircache
          · subst hd
            split
            · exact fun _ => assert_of_active_empty _
                (dircache_expire_active_empty s pde.pde_dircache)
            · rw [setCache_caches_self]
              refine fun _ => assert_of_active_empty _ ?_
              rw [activehead_setStaleHead]
              exact dircache_expire_active_empty s pde.pde_dircache
          · split
            · rw [dircache_expire_caches_ne s pde.pde_dircache d hd]
              exact hinv
            · rw [setCache_caches_ne _ _ _ _ hd,
                dircache_expire_caches_ne s pde.pde_dircache d hd]
              exact hinv
        | some pde1 =>
          dsimp only
          by_cases hd : d = pde.pde_dircache
          · subst hd
            split
            · rw [setEntry_caches]
              exact fun _ => assert_of_active_empty _
                (dircache_expire_active_empty s pde.pde_dircache)
            · rw [setCache_caches_self]
              refine fun _ => assert_of_active_empty _ ?_
              rw [activehead_setStaleHead, setEntry_caches]
              exact dircache_expire_active_empty s pde.pde_dircache
          · split
            · rw [setEntry_caches,
                dircache_expire_caches_ne s pde.pde_dircache d hd]
              exact hinv
            · rw [setCache_caches_ne _ _ _ _ hd, setEntry_caches,
                dircache_expire_caches_ne s pde.pde_dircache d hd]
              exact hinv
      · exact hinv

/-- C5: the `DIRCACHE_ASSERT` invariant — at most one of the two entry lists
non-empty whenever `PD_UPDATING` is clear — holds for a freshly created
cache and is preserved by every cache operation: `beginupdate`, `insert`,
`update` (reconfirm), `endupdate` (given the intrusive-list wellformedness
that stale-list ids are entries owned by this cache), `abortupdate`, and
`purge` (given the same wellformedness for both lists). -/
theorem C5_idle_list_invariant (s : DircacheState) (d : Nat) :
    dcIdleInv ((pefs_dircache_create s).1.caches s.nextCacheId) ∧
    (∀ g, dcIdleInv (s.caches d) →
      dcIdleInv ((pefs_dircache_beginupdate s d g).caches d)) ∧
    (∀ k name enc s2 eid, pefs_dircache_insert s d k name enc = some (s2, eid) →
      dcIdleInv (s.caches d) → dcIdleInv (s2.caches d)) ∧
    (∀ id, dcIdleInv (s.caches d) →
      dcIdleInv ((pefs_dircache_update s id).caches d)) ∧
    (dcIdleInv (s.caches d) →
      (∀ x ∈ DIRCACHE_STALEHEAD (s.caches d), ownedBy s x d = true) →
      dcIdleInv ((pefs_dircache_endupdate s d).caches d)) ∧
    (dcIdleInv (s.caches d) →
      dcIdleInv ((pefs_dircache_abortupdate s d).caches d)) ∧
    ((∀ x ∈ DIRCACHE_STALEHEAD (s.caches d), ownedBy s x d = true) →
      (∀ x ∈ DIRCACHE_ACTIVEHEAD (s.caches d), ownedBy s x d = true) →
      dcIdleInv ((pefs_dircache_purge s d).caches d)) := by
  refine ⟨?_, ?_, ?_, ?_, ?_, ?_, ?_⟩
  · intro _
    simp [pefs_dircache_create, DIRCACHE_ASSERT_prop]
  · intro g hinv
    unfold pefs_dircache_beginupdate
    dsimp only
    split
    · rw [setCache_caches_self]
      intro hfalse
      exfalso
      simp at hfalse
    · exact hinv
  · intro k name enc s2 eid hins hinv
    unfold pefs_dircache_insert at hins
    split at hins
    · simp at hins
    · dsimp only at hins
      rw [Option.some.injEq, Prod.mk.injEq] at hins
      obtain ⟨h1, h2⟩ := hins
      subst h1
      show dcIdleInv ((dircache_update_core
        (insertEntryState s s.nextEntryId (mkEntry d k name enc))
        s.nextEntryId false).caches d)
      apply update_core_idle_inv
      rw [insertEntryState_caches]
      exact hinv
  · intro id hinv
    exact update_core_idle_inv s id true d hinv
  · intro hinv hown
    unfold pefs_dircache_endupdate
    dsimp only
    split
    · rw [setCache_caches_self]
      refine fun _ => assert_of_stale_empty _ ?_
      rw [stalehead_set_updating]
      exact freeList_stale_empty s d _ (fun x hx => hx) hown
    · exact hinv
  · intro hinv
    unfold pefs_dircache_abortupdate
    dsimp only
    split
    · rw [setCache_caches_self]
      refine fun _ => assert_of_active_empty _ ?_
      rw [activehead_set_updating]
      exact dircache_expire_active_empty s d
    · exact hinv
  · intro hown1 hown2
    unfold pefs_dircache_purge
    dsimp only
    refine fun _ => assert_of_active_empty _ ?_
    apply freeList_active_empty
    · exact fun x hx => hx
    · intro x hx2
      have hxA : x ∈ DIRCACHE_ACTIVEHEAD (s.caches d) :=
        freeList_active_sub s _ d x hx2
      have hownx : ownedBy s x d = true := hown2 x hxA
      have hxnot : x ∉ DIRCACHE_STALEHEAD (s.caches d) := by
        intro hmem
        have h2 := freeList_owned_not_mem s (DIRCACHE_STALEHEAD (s.caches d)) d x
          hmem (hown1 x hmem)
        unfold DIRCACHE_ACTIVEHEAD at hx2
        cases hsw : ((freeList s (DIRCACHE_STALEHEAD (s.caches d))).caches
            d).pd_swapedheads
        · rw [hsw] at hx2
          simp at hx2
          exact h2.1 hx2
        · rw [hsw] at hx2
          simp at hx2
          exact h2.2 hx2
      unfold ownedBy
      rw [freeList_entries_not_mem s _ x hxnot]
      exact hownx

/-- A concrete mid-update cache with one stale entry (id 0) owned by cache 0,
used to witness the invariant-preservation claim. -/
def invWitnessState : DircacheState :=
  { initState 3 with
      entries := fun i =>
        if i = 0 then some ⟨0, 1, 5, 10, 20, nameFoo, nameABC⟩ else none,
      nextEntryId := 1,
      caches := fun _ => ⟨5, true, false, [], [0]⟩ }

/-- Witness for C5: the invariant holds after `endupdate` and after `purge`
of `invWitnessState`, with the wellformedness hypotheses discharged by
computation. -/
theorem C5_idle_list_invariant_witness :
    dcIdleInv ((pefs_dircache_endupdate invWitnessState 0).caches 0) ∧
    dcIdleInv ((pefs_dircache_purge invWitnessState 0).caches 0) :=
  ⟨(C5_idle_list_invariant invWitnessState 0).2.2.2.2.1
      (by unfold dcIdleInv DIRCACHE_ASSERT_prop; decide) (by decide),
   (C5_idle_list_invariant invWitnessState 0).2.2.2.2.2.2 (by decide) (by decide)⟩

theorem find_eq_of_unique (p : Nat → Bool) (l : List Nat) (eid : Nat)
    (hmem : eid ∈ l) (hp : p eid = true)
    (huniq : ∀ x ∈ l, p x = true → x = eid) :
    l.find? p = some eid := by
  induction l with
  | nil => cases hmem
  | cons x rest ih =>
    rw [List.find?_cons]
    cases hx : p x
    · simp only [cond_false]
      have hne : eid ≠ x := by
        intro h
        rw [← h, hp] at hx
        cases hx
      have hmem2 : eid ∈ rest := by
        rcases List.mem_cons.mp hmem with h | h
        · exact absurd h hne
        · exact h
      exact ih hmem2 fun y hy hpy => huniq y (List.mem_cons_of_mem _ hy) hpy
    · simp only [cond_true]
      rw [huniq x (List.mem_cons_self _ _) hx]

theorem enc_match_entries_congr (s1 s2 : DircacheState) (d h : Nat)
    (enc : List Nat) (id2 : Nat) (he : s1.entries id2 = s2.entries id2) :
    enc_match s1 d h enc id2 = enc_match s2 d h enc id2 := by
  unfold enc_match
  rw [he]

theorem setEntry_tbl (s : DircacheState) (id : Nat)
    (e : Option pefs_dircache_entry) : (setEntry s id e).pdp_tbl = s.pdp_tbl := rfl

theorem setEntry_enctbl (s : DircacheState) (id : Nat)
    (e : Option pefs_dircache_entry) :
    (setEntry s id e).pdp_enctbl = s.pdp_enctbl := rfl

/-- C3 (amended): the bucket scan of `pefs_dircache_enclookup` matches on
encrypted-name hash, owning-cache identity, length and raw bytes only and
never consults the generation stamp or the `PD_UPDATING` flag: when `E` is
the only entry of cache `D` in its bucket with that encrypted name, the
lookup returns `E` — unchanged for every value of `E`'s generation stamp
and of `D`'s updating flag, hence also mid-update and with a stale
generation. -/
theorem C3_enclookup_ignores_gen (s : DircacheState) (d eid : Nat)
    (e : pefs_dircache_entry)
    (hent : s.entries eid = some e)
    (hdir : e.pde_dircache = d)
    (hhash : e.pde_encnamehash = dircache_hashname d e.pde_encname)
    (hmem : eid ∈ s.pdp_enctbl (tblIdx s (dircache_hashname d e.pde_encname)))
    (huniq : ∀ id2 ∈ s.pdp_enctbl (tblIdx s (dircache_hashname d e.pde_encname)),
      enc_match s d (dircache_hashname d e.pde_encname) e.pde_encname id2 = true →
        id2 = eid) :
    pefs_dircache_enclookup s d e.pde_encname = some eid ∧
    ∀ g u, pefs_dircache_enclookup
        (setCache (setEntry s eid (some { e with pde_gen := g })) d
          { s.caches d with pd_updating := u }) d e.pde_encname = some eid := by
  constructor
  · unfold pefs_dircache_enclookup
    dsimp only
    apply find_eq_of_unique
    · exact hmem
    · unfold enc_match
      rw [hent]
      simp [hhash, hdir]
    · exact huniq
  · intro g u
    unfold pefs_dircache_enclookup
    dsimp only
    apply find_eq_of_unique
    · exact hmem
    · unfold enc_match
      rw [setCache_entries, setEntry_entries_self]
      simp [hhash, hdir]
    · intro x hx hpx
      by_cases hxe : x = eid
      · exact hxe
      · refine huniq x hx ?_
        rw [← enc_match_entries_congr
          (setCache (setEntry s eid (some { e with pde_gen := g })) d
            { s.caches d with pd_updating := u }) s
          d (dircache_hashname d e.pde_encname) e.pde_encname x
          (by rw [setCache_entries, setEntry_entries_ne _ _ _ _ hxe])]
        exact hpx

/-- Counterexample to C3 as stated: inserting the same pair "foo" / "ABC"
twice in one update pass gives cache 0 two entries (ids 0 and 1) with the
same encrypted name; `pefs_dircache_enclookup` for entry 0's encrypted name
returns the more recently inserted entry 1 — not entry 0, although entry 0
is an entry of the cache with exactly that encrypted name. -/
theorem C3_counterexample :
    ∃ sA sB,
      pefs_dircache_insert (pefs_dircache_beginupdate
        (pefs_dircache_create (initState 511)).1 0 1) 0 7 nameFoo nameABC
        = some (sA, 0) ∧
      pefs_dircache_insert sA 0 7 nameFoo nameABC = some (sB, 1) ∧
      Option.map pefs_dircache_entry.pde_dircache (sB.entries 0) = some 0 ∧
      Option.map pefs_dircache_entry.pde_encname (sB.entries 0) = some nameABC ∧
      pefs_dircache_enclookup sB 0 nameABC = some 1 ∧
      ¬ pefs_dircache_enclookup sB 0 nameABC = some 0 := by
  refine ⟨_, _, rfl, rfl, ?_, ?_, ?_, ?_⟩ <;> decide

/-- An entry and a one-bucket state (hash mask 0) used to witness the
amended encrypted-name lookup claim. -/
def encWitnessEntry : pefs_dircache_entry :=
  ⟨0, 1, 99, dircache_hashname 0 nameFoo, dircache_hashname 0 nameABC,
    nameFoo, nameABC⟩

/-- State holding `encWitnessEntry` at id 0, on cache 0's active list and in
the encrypted-name bucket. -/
def encWitnessState : DircacheState :=
  { initState 0 with
      entries := fun i => if i = 0 then some encWitnessEntry else none,
      nextEntryId := 1,
      caches := fun _ => ⟨7, false, false, [0], []⟩,
      pdp_enctbl := fun i => if i = 0 then [0] else [] }

/-- Witness for C3 at `encWitnessState`: the lookup finds entry 0 both in
the original state and with its generation stamp rewritten to 12345 while
the cache is flagged updating. -/
theorem C3_enclookup_ignores_gen_witness :
    pefs_dircache_enclookup encWitnessState 0 encWitnessEntry.pde_encname
        = some 0 ∧
    pefs_dircache_enclookup
      (setCache (setEntry encWitnessState 0
          (some { encWitnessEntry with pde_gen := 12345 })) 0
        { encWitnessState.caches 0 with pd_updating := true }) 0
      encWitnessEntry.pde_encname = some 0 :=
  ⟨(C3_enclookup_ignores_gen encWitnessState 0 0 encWitnessEntry (by decide)
      (by decide) (by decide) (by decide) (by decide)).1,
   (C3_enclookup_ignores_gen encWitnessState 0 0 encWitnessEntry (by decide)
      (by decide) (by decide) (by decide) (by decide)).2 12345 true⟩

/-! ### Bucket lemmas for `pefs_dircache_purge` -/

theorem free_tblIdx (s : DircacheState) (y h : Nat) :
    tblIdx (dircache_entry_free s y) h = tblIdx s h := by
  unfold tblIdx
  rw [free_hashmask]

theorem freeList_tblIdx (s : DircacheState) (l : List Nat) (h : Nat) :
    tblIdx (freeList s l) h = tblIdx s h := by
  unfold tblIdx
  rw [freeList_hashmask]

theorem free_tbl_sub (s : DircacheState) (y i x : Nat)
    (hx : x ∈ (dircache_entry_free s y).pdp_tbl i) : x ∈ s.pdp_tbl i := by
  cases he : s.entries y with
  | none => rwa [free_none s y he] at hx
  | some e =>
    rw [free_some_tbl s y e he] at hx
    dsimp only at hx
    by_cases hi : i = tblIdx s e.pde_namehash
    · rw [if_pos hi] at hx
      exact List.mem_of_mem_filter hx
    · rwa [if_neg hi] at hx

theorem free_enctbl_sub (s : DircacheState) (y i x : Nat)
    (hx : x ∈ (dircache_entry_free s y).pdp_enctbl i) : x ∈ s.pdp_enctbl i := by
  cases he : s.entries y with
  | none => rwa [free_none s y he] at hx
  | some e =>
    rw [free_some_enctbl s y e he] at hx
    dsimp only at hx
    by_cases hi : i = tblIdx s e.pde_encnamehash
    · rw [if_pos hi] at hx
      exact List.mem_of_mem_filter hx
    · rwa [if_neg hi] at hx

theorem freeList_tbl_sub (s : DircacheState) (l : List Nat) (i x : Nat)
    (hx : x ∈ (freeList s l).pdp_tbl i) : x ∈ s.pdp_tbl i := by
  induction l generalizing s with
  | nil => exact hx
  | cons y rest ih => exact free_tbl_sub s y i x (ih _ hx)

theorem freeList_enctbl_sub (s : DircacheState) (l : List Nat) (i x : Nat)
    (hx : x ∈ (freeList s l).pdp_enctbl i) : x ∈ s.pdp_enctbl i := by
  induction l generalizing s with
  | nil => exact hx
  | cons y rest ih => exact free_enctbl_sub s y i x (ih _ hx)

theorem free_head0_mem_of_not (s : DircacheState) (y d x : Nat) (hne : x ≠ y)
    (hx : x ∈ (s.caches d).pd_head0) :
    x ∈ ((dircache_entry_free s y).caches d).pd_head0 := by
  rcases free_caches_cases s y d with h | h <;> rw [h]
  · exact hx
  · exact List.mem_filter.mpr ⟨hx, by simpa using hne⟩

theorem free_head1_mem_of_not (s : DircacheState) (y d x : Nat) (hne : x ≠ y)
    (hx : x ∈ (s.caches d).pd_head1) :
    x ∈ ((dircache_entry_free s y).caches d).pd_head1 := by
  rcases free_caches_cases s y d with h | h <;> rw [h]
  · exact hx
  · exact List.mem_filter.mpr ⟨hx, by simpa using hne⟩

theorem freeList_active_mem_of_not (s : DircacheState) (l : List Nat) (d x : Nat)
    (hnl : x ∉ l) (hx : x ∈ DIRCACHE_ACTIVEHEAD (s.caches d)) :
    x ∈ DIRCACHE_ACTIVEHEAD ((freeList s l).caches d) := by
  induction l generalizing s with
  | nil => exact hx
  | cons y rest ih =>
    have hny : x ≠ y := fun h => hnl (h ▸ List.mem_cons_self _ _)
    have hnr : x ∉ rest := fun h => hnl (List.mem_cons_of_mem _ h)
    refine ih (dircache_entry_free s y) hnr ?_
    unfold DIRCACHE_ACTIVEHEAD at hx ⊢
    rw [free_swaped]
    cases hsw : (s.caches d).pd_swapedheads <;> rw [hsw] at hx <;> simp at hx ⊢
    · exact free_head0_mem_of_not s y d x hny hx
    · exact free_head1_mem_of_not s y d x hny hx

/-- Rep invariant of the plaintext-hash table: every id found in a bucket is
a live entry whose bucket is the one selected by its stored name hash. -/
def tblCanonical (s : DircacheState) : Prop :=
  ∀ i x, x ∈ s.pdp_tbl i →
    ∃ e, s.entries x = some e ∧ i = tblIdx s e.pde_namehash

/-- Rep invariant of the encrypted-hash table. -/
def enctblCanonical (s : DircacheState) : Prop :=
  ∀ i x, x ∈ s.pdp_enctbl i →
    ∃ e, s.entries x = some e ∧ i = tblIdx s e.pde_encnamehash

theorem not_in_tbl_of_none (s : DircacheState) (x : Nat)
    (he : s.entries x = none) (hc : tblCanonical s) :
    ∀ i, x ∉ s.pdp_tbl i := by
  intro i hx
  obtain ⟨e2, he2, _⟩ := hc i x hx
  rw [he] at he2
  cases he2

theorem not_in_enctbl_of_none (s : DircacheState) (x : Nat)
    (he : s.entries x = none) (hc : enctblCanonical s) :
    ∀ i, x ∉ s.pdp_enctbl i := by
  intro i hx
  obtain ⟨e2, he2, _⟩ := hc i x hx
  rw [he] at he2
  cases he2

theorem free_removed_from_tbl (s : DircacheState) (x : Nat)
    (e : pefs_dircache_entry) (he : s.entries x = some e) (hc : tblCanonical s) :
    ∀ i, x ∉ (dircache_entry_free s x).pdp_tbl i := by
  intro i hx
  rw [free_some_tbl s x e he] at hx
  dsimp only at hx
  by_cases hib : i = tblIdx s e.pde_namehash
  · rw [if_pos hib] at hx
    simp [listRemove] at hx
  · rw [if_neg hib] at hx
    obtain ⟨e2, he2, hi2⟩ := hc i x hx
    rw [he] at he2
    injection he2 with h3
    exact hib (by rw [h3]; exact hi2)

theorem free_removed_from_enctbl (s : DircacheState) (x : Nat)
    (e : pefs_dircache_entry) (he : s.entries x = some e)
    (hc : enctblCanonical s) :
    ∀ i, x ∉ (dircache_entry_free s x).pdp_enctbl i := by
  intro i hx
  rw [free_some_enctbl s x e he] at hx
  dsimp only at hx
  by_cases hib : i = tblIdx s e.pde_encnamehash
  · rw [if_pos hib] at hx
    simp [listRemove] at hx
  · rw [if_neg hib] at hx
    obtain ⟨e2, he2, hi2⟩ := hc i x hx
    rw [he] at he2
    injection he2 with h3
    exact hib (by rw [h3]; exact hi2)

theorem free_preserves_tblCanonical (s : DircacheState) (y : Nat)
    (hc : tblCanonical s) : tblCanonical (dircache_entry_free s y) := by
  intro i x hx
  have hxs := free_tbl_sub s y i x hx
  obtain ⟨e2, he2, hi2⟩ := hc i x hxs
  by_cases hxy : x = y
  · subst hxy
    exfalso
    cases he : s.entries x with
    | none =>
      rw [he] at he2
      cases he2
    | some e => exact free_removed_from_tbl s x e he hc i hx
  · refine ⟨e2, ?_, ?_⟩
    · rw [free_entries_ne s y x hxy]
      exact he2
    · rw [free_tblIdx]
      exact hi2

theorem free_preserves_enctblCanonical (s : DircacheState) (y : Nat)
    (hc : enctblCanonical s) : enctblCanonical (dircache_entry_free s y) := by
  intro i x hx
  have hxs := free_enctbl_sub s y i x hx
  obtain ⟨e2, he2, hi2⟩ := hc i x hxs
  by_cases hxy : x = y
  · subst hxy
    exfalso
    cases he : s.entries x with
    | none =>
      rw [he] at he2
      cases he2
    | some e => exact free_removed_from_enctbl s x e he hc i hx
  · refine ⟨e2, ?_, ?_⟩
    · rw [free_entries_ne s y x hxy]
      exact he2
    · rw [free_tblIdx]
      exact hi2

theorem freeList_preserves_tblCanonical (l : List Nat) :
    ∀ s : DircacheState, tblCanonical s → tblCanonical (freeList s l) := by
  induction l with
  | nil => exact fun s hc => hc
  | cons y rest ih =>
    intro s hc
    exact ih _ (free_preserves_tblCanonical s y hc)

theorem freeList_preserves_enctblCanonical (l : List Nat) :
    ∀ s : DircacheState, enctblCanonical s → enctblCanonical (freeList s l) := by
  induction l with
  | nil => exact fun s hc => hc
  | cons y rest ih =>
    intro s hc
    exact ih _ (free_preserves_enctblCanonical s y hc)

theorem freeList_tbl_removed (l : List Nat) :
    ∀ (s : DircacheState) (x : Nat), tblCanonical s → x ∈ l →
      ∀ i, x ∉ (freeList s l).pdp_tbl i := by
  induction l with
  | nil =>
    intro s x _ hx
    cases hx
  | cons y rest ih =>
    intro s x hc hx i hmem
    by_cases hxy : x = y
    · subst hxy
      have h1 : ∀ j, x ∉ (dircache_entry_free s x).pdp_tbl j := by
        cases he : s.entries x with
        | none =>
          intro j hj
          rw [free_none s x he] at hj
          exact not_in_tbl_of_none s x he hc j hj
        | some e => exact free_removed_from_tbl s x e he hc
      exact h1 i (freeList_tbl_sub _ rest i x hmem)
    · have hrest : x ∈ rest := (List.mem_cons.mp hx).resolve_left hxy
      exact ih (dircache_entry_free s y) x
        (free_preserves_tblCanonical s y hc) hrest i hmem

theorem freeList_enctbl_removed (l : List Nat) :
    ∀ (s : DircacheState) (x : Nat), enctblCanonical s → x ∈ l →
      ∀ i, x ∉ (freeList s l).pdp_enctbl i := by
  induction l with
  | nil =>
    intro s x _ hx
    cases hx
  | cons y rest ih =>
    intro s x hc hx i hmem
    by_cases hxy : x = y
    · subst hxy
      have h1 : ∀ j, x ∉ (dircache_entry_free s x).pdp_enctbl j := by
        cases he : s.entries x with
        | none =>
          intro j hj
          rw [free_none s x he] at hj
          exact not_in_enctbl_of_none s x he hc j hj
        | some e => exact free_removed_from_enctbl s x e he hc
      exact h1 i (freeList_enctbl_sub _ rest i x hmem)
    · have hrest : x ∈ rest := (List.mem_cons.mp hx).resolve_left hxy
      exact ih (dircache_entry_free s y) x
        (free_preserves_enctblCanonical s y hc) hrest i hmem

/-- C7: `pefs_dircache_purge` frees every entry on both of the cache's lists
(their arena slots become empty), removes each of them from every bucket of
both pool tables, and leaves both lists empty; afterwards `lookup` and
`enclookup` on this cache return not-found for every name.  The hypotheses
are the intrusive-structure invariants the C code maintains: list members
are live entries owned by this cache, every bucket id is a live entry
sitting in the bucket selected by its stored hash, and every bucket entry
owned by this cache is on one of its two lists. -/
theorem C7_purge_empties_cache (s : DircacheState) (d : Nat)
    (hownS : ∀ x ∈ DIRCACHE_STALEHEAD (s.caches d), ownedBy s x d = true)
    (hownA : ∀ x ∈ DIRCACHE_ACTIVEHEAD (s.caches d), ownedBy s x d = true)
    (hcT : tblCanonical s)
    (hcE : enctblCanonical s)
    (hT3 : ∀ i x, x ∈ s.pdp_tbl i → ownedBy s x d = true →
      (x ∈ DIRCACHE_STALEHEAD (s.caches d) ∨ x ∈ DIRCACHE_ACTIVEHEAD (s.caches d)))
    (hE3 : ∀ i x, x ∈ s.pdp_enctbl i → ownedBy s x d = true →
      (x ∈ DIRCACHE_STALEHEAD (s.caches d) ∨ x ∈ DIRCACHE_ACTIVEHEAD (s.caches d))) :
    (∀ x, (x ∈ DIRCACHE_STALEHEAD (s.caches d) ∨
        x ∈ DIRCACHE_ACTIVEHEAD (s.caches d)) →
      (pefs_dircache_purge s d).entries x = none) ∧
    DIRCACHE_ACTIVEHEAD ((pefs_dircache_purge s d).caches d) = [] ∧
    DIRCACHE_STALEHEAD ((pefs_dircache_purge s d).caches d) = [] ∧
    (∀ x, (x ∈ DIRCACHE_STALEHEAD (s.caches d) ∨
        x ∈ DIRCACHE_ACTIVEHEAD (s.caches d)) →
      ∀ i, x ∉ (pefs_dircache_purge s d).pdp_tbl i ∧
        x ∉ (pefs_dircache_purge s d).pdp_enctbl i) ∧
    (∀ name, pefs_dircache_lookup (pefs_dircache_purge s d) d name = none) ∧
    (∀ name, pefs_dircache_enclookup (pefs_dircache_purge s d) d name = none) := by
  unfold pefs_dircache_purge
  dsimp only
  set s1 := freeList s (DIRCACHE_STALEHEAD (s.caches d)) with hs1
  set L2 := DIRCACHE_ACTIVEHEAD (s1.caches d) with hL2
  have hL2owned : ∀ x ∈ L2, ownedBy s1 x d = true := by
    intro x hx2
    have hxA : x ∈ DIRCACHE_ACTIVEHEAD (s.caches d) :=
      freeList_active_sub s _ d x hx2
    have hxnot : x ∉ DIRCACHE_STALEHEAD (s.caches d) := by
      intro hmem
      have h2 := freeList_owned_not_mem s (DIRCACHE_STALEHEAD (s.caches d)) d x
        hmem (hownS x hmem)
      rw [hL2] at hx2
      unfold DIRCACHE_ACTIVEHEAD at hx2
      cases hsw : (s1.caches d).pd_swapedheads
      · rw [hsw] at hx2
        simp at hx2
        exact h2.1 hx2
      · rw [hsw] at hx2
        simp at hx2
        exact h2.2 hx2
    rw [hs1]
    unfold ownedBy
    rw [freeList_entries_not_mem s _ x hxnot]
    exact hownA x hxA
  have hfreed : ∀ x, (x ∈ DIRCACHE_STALEHEAD (s.caches d) ∨
      x ∈ DIRCACHE_ACTIVEHEAD (s.caches d)) →
      (freeList s1 L2).entries x = none := by
    intro x hx
    by_cases hx1 : x ∈ DIRCACHE_STALEHEAD (s.caches d)
    · refine freeList_entries_none s1 L2 x ?_
      rw [hs1]
      exact freeList_entries_mem_none s _ x hx1
    · rcases hx with h | h
      · exact absurd h hx1
      · refine freeList_entries_mem_none s1 L2 x ?_
        rw [hL2, hs1]
        exact freeList_active_mem_of_not s _ d x hx1 h
  have hactive : DIRCACHE_ACTIVEHEAD ((freeList s1 L2).caches d) = [] :=
    freeList_active_empty s1 d L2 (fun x hx => hx) hL2owned
  have hstale : DIRCACHE_STALEHEAD ((freeList s1 L2).caches d) = [] := by
    rw [List.eq_nil_iff_forall_not_mem]
    intro x hx
    have h1 := freeList_stale_sub s1 L2 d x hx
    rw [hs1] at h1
    rw [freeList_stale_empty s d _ (fun y hy => hy) hownS] at h1
    cases h1
  have hbuckets : ∀ x, (x ∈ DIRCACHE_STALEHEAD (s.caches d) ∨
      x ∈ DIRCACHE_ACTIVEHEAD (s.caches d)) →
      ∀ i, x ∉ (freeList s1 L2).pdp_tbl i ∧
        x ∉ (freeList s1 L2).pdp_enctbl i := by
    intro x hx i
    constructor
    · by_cases hx1 : x ∈ DIRCACHE_STALEHEAD (s.caches d)
      · intro hmem
        refine freeList_tbl_removed _ s x hcT hx1 i ?_
        rw [← hs1]
        exact freeList_tbl_sub s1 L2 i x hmem
      · rcases hx with h | h
        · exact absurd h hx1
        · exact freeList_tbl_removed L2 s1 x
            (by rw [hs1]; exact freeList_preserves_tblCanonical _ s hcT)
            (by rw [hL2, hs1]; exact freeList_active_mem_of_not s _ d x hx1 h) i
    · by_cases hx1 : x ∈ DIRCACHE_STALEHEAD (s.caches d)
      · intro hmem
        refine freeList_enctbl_removed _ s x hcE hx1 i ?_
        rw [← hs1]
        exact freeList_enctbl_sub s1 L2 i x hmem
      · rcases hx with h | h
        · exact absurd h hx1
        · exact freeList_enctbl_removed L2 s1 x
            (by rw [hs1]; exact freeList_preserves_enctblCanonical _ s hcE)
            (by rw [hL2, hs1]; exact freeList_active_mem_of_not s _ d x hx1 h) i
  refine ⟨hfreed, hactive, hstale, hbuckets, ?_, ?_⟩
  · intro name
    unfold pefs_dircache_lookup
    dsimp only
    rw [List.find?_eq_none]
    intro x hx
    have hxs1 : x ∈ s1.pdp_tbl (tblIdx (freeList s1 L2) (dircache_hashname d name)) :=
      freeList_tbl_sub s1 L2 _ x hx
    have hxs : x ∈ s.pdp_tbl (tblIdx (freeList s1 L2) (dircache_hashname d name)) := by
      rw [hs1] at hxs1
      exact freeList_tbl_sub s _ _ x hxs1
    obtain ⟨e, he, _⟩ := hcT _ x hxs
    intro hp
    by_cases hdir2 : e.pde_dircache = d
    · have howned : ownedBy s x d = true := by
        unfold ownedBy
        rw [he]
        simp [hdir2]
      have hnone := hfreed x (hT3 _ x hxs howned)
      unfold name_match at hp
      rw [hnone] at hp
      cases hp
    · have hx1 : x ∉ DIRCACHE_STALEHEAD (s.caches d) := by
        intro hmem
        have h4 := hownS x hmem
        unfold ownedBy at h4
        rw [he] at h4
        simp [hdir2] at h4
      have hx2 : x ∉ L2 := by
        intro hmem2
        rw [hL2] at hmem2
        have hxa := freeList_active_sub s _ d x hmem2
        have h4 := hownA x hxa
        unfold ownedBy at h4
        rw [he] at h4
        simp [hdir2] at h4
      have hfin : (freeList s1 L2).entries x = some e := by
        rw [freeList_entries_not_mem s1 L2 x hx2, hs1,
          freeList_entries_not_mem s _ x hx1]
        exact he
      unfold name_match at hp
      rw [hfin] at hp
      simp [hdir2] at hp
  · intro name
    unfold pefs_dircache_enclookup
    dsimp only
    rw [List.find?_eq_none]
    intro x hx
    have hxs1 : x ∈ s1.pdp_enctbl (tblIdx (freeList s1 L2) (dircache_hashname d name)) :=
      freeList_enctbl_sub s1 L2 _ x hx
    have hxs : x ∈ s.pdp_enctbl (tblIdx (freeList s1 L2) (dircache_hashname d name)) := by
      rw [hs1] at hxs1
      exact freeList_enctbl_sub s _ _ x hxs1
    obtain ⟨e, he, _⟩ := hcE _ x hxs
    intro hp
    by_cases hdir2 : e.pde_dircache = d
    · have howned : ownedBy s x d = true := by
        unfold ownedBy
        rw [he]
        simp [hdir2]
      have hnone := hfreed x (hE3 _ x hxs howned)
      unfold enc_match at hp
      rw [hnone] at hp
      cases hp
    · have hx1 : x ∉ DIRCACHE_STALEHEAD (s.caches d) := by
        intro hmem
        have h4 := hownS x hmem
        unfold ownedBy at h4
        rw [he] at h4
        simp [hdir2] at h4
      have hx2 : x ∉ L2 := by
        intro hmem2
        rw [hL2] at hmem2
        have hxa := freeList_active_sub s _ d x hmem2
        have h4 := hownA x hxa
        unfold ownedBy at h4
        rw [he] at h4
        simp [hdir2] at h4
      have hfin : (freeList s1 L2).entries x = some e := by
        rw [freeList_entries_not_mem s1 L2 x hx2, hs1,
          freeList_entries_not_mem s _ x hx1]
        exact he
      unfold enc_match at hp
      rw [hfin] at hp
      simp [hdir2] at hp

/-- A one-entry state (hash mask 0, entry id 0 on cache 0's active list and
in bucket 0 of both tables) used to witness the purge claim. -/
def purgeWitnessState : DircacheState :=
  { dircache_hashmask := 0
    entries := fun i =>
      if i = 0 then some ⟨0, 1, 5, 77, 88, nameFoo, nameABC⟩ else none
    nextEntryId := 1
    caches := fun _ => ⟨5, false, false, [0], []⟩
    nextCacheId := 1
    pdp_tbl := fun i => if i = 0 then [0] else []
    pdp_enctbl := fun i => if i = 0 then [0] else []
    dircache_entries := 1
    keyRefs := fun _ => 0 }

/-- Witness for C7 at `purgeWitnessState`. -/
theorem C7_purge_empties_cache_witness :
    (∀ x, (x ∈ DIRCACHE_STALEHEAD (purgeWitnessState.caches 0) ∨
        x ∈ DIRCACHE_ACTIVEHEAD (purgeWitnessState.caches 0)) →
      (pefs_dircache_purge purgeWitnessState 0).entries x = none) ∧
    DIRCACHE_ACTIVEHEAD ((pefs_dircache_purge purgeWitnessState 0).caches 0) = [] ∧
    DIRCACHE_STALEHEAD ((pefs_dircache_purge purgeWitnessState 0).caches 0) = [] ∧
    (∀ x, (x ∈ DIRCACHE_STALEHEAD (purgeWitnessState.caches 0) ∨
        x ∈ DIRCACHE_ACTIVEHEAD (purgeWitnessState.caches 0)) →
      ∀ i, x ∉ (pefs_dircache_purge purgeWitnessState 0).pdp_tbl i ∧
        x ∉ (pefs_dircache_purge purgeWitnessState 0).pdp_enctbl i) ∧
    (∀ name, pefs_dircache_lookup (pefs_dircache_purge purgeWitnessState 0) 0 name
      = none) ∧
    (∀ name, pefs_dircache_enclookup (pefs_dircache_purge purgeWitnessState 0) 0 name
      = none) :=
  C7_purge_empties_cache purgeWitnessState 0
    (by decide)
    (by decide)
    (by
      intro i x hx
      simp only [purgeWitnessState] at hx
      by_cases hi : i = 0
      · subst hi
        simp at hx
        subst hx
        exact ⟨_, rfl, by decide⟩
      · simp [hi] at hx)
    (by
      intro i x hx
      simp only [purgeWitnessState] at hx
      by_cases hi : i = 0
      · subst hi
        simp at hx
        subst hx
        exact ⟨_, rfl, by decide⟩
      · simp [hi] at hx)
    (by
      intro i x hx hown
      simp only [purgeWitnessState] at hx
      by_cases hi : i = 0
      · subst hi
        simp at hx
        subst hx
        right
        decide
      · simp [hi] at hx)
    (by
      intro i x hx hown
      simp only [purgeWitnessState] at hx
      by_cases hi : i = 0
      · subst hi
        simp at hx
        subst hx
        right
        decide
      · simp [hi] at hx)
